import Mathlib

/-!
Shallow embedding of the multi-agent grid-world simulator
(`simulador/engine.py`, `simulador/agentes.py`, `simulador/ambiente_farol.py`,
`simulador/ambiente_foraging.py`, `simulador/policies.py`).

Modelling conventions:
* Python coordinates are pairs of machine integers; they are embedded as `Int × Int`
  (Python integers are unbounded, so no modular wrap-around is needed).
* Python floats appearing in rewards and hyper-parameters are embedded as `ℚ`.
  All reward constants in the source (`-0.01`, `2.0`, `5.0`, `0.05`, `-0.02`,
  `100.0`, `50.0`, …) are exactly representable, and the claims below only
  concern signs, comparisons and exact constant sums of such values.
* Python dicts (keyed by agent-id strings) are embedded as association lists
  with first-binding lookup (`dget`) and replace-or-append update (`dset`),
  matching insertion-order dict semantics.
* Python sets of cells (`walls`, `resources`) are embedded as duplicate-free
  lists; `set.discard` becomes `List.filter (· ≠ x)`.
* Calls to the global random number generator (`random.random`,
  `random.choice`, `random.gauss`, `random.shuffle`) are parameterised by
  oracle values/streams supplied by the caller, so every concrete Python
  execution corresponds to one choice of oracles.
-/

namespace Simulador

abbrev Pos := Int × Int

/-- First-binding lookup in an association list, with a default
(`dict.get(k, v0)` / guarded `dict[k]` access). -/
def dget {α : Type} (d : List (String × α)) (k : String) (v0 : α) : α :=
  match d with
  | [] => v0
  | (k', v) :: rest => if k' = k then v else dget rest k v0

/-- Python `dict[k] = v`: replace the first binding of `k`, else append. -/
def dset {α : Type} (d : List (String × α)) (k : String) (v : α) : List (String × α) :=
  match d with
  | [] => [(k, v)]
  | (k', v') :: rest => if k' = k then (k, v) :: rest else (k', v') :: dset rest k v

/-- Manhattan distance between two cells (`_manhattan` / `_dist_manhattan`). -/
def manhattan (a b : Pos) : Int :=
  |a.1 - b.1| + |a.2 - b.2|

/-- Python `min(dist list)` over a nonempty list of candidate cells
(first component of the recursion is the running minimum). -/
def minDist (p : Pos) : List Pos → Int
  | [] => 0
  | r :: rs => rs.foldl (fun m q => min m (manhattan p q)) (manhattan p r)

/-- Python `min(recursos_com_dist, key=dist)`: the first cell attaining the
minimal Manhattan distance, following list order. -/
def nearestRes (p : Pos) : List Pos → Option Pos
  | [] => none
  | r :: rs => some (rs.foldl (fun best q =>
      if manhattan p q < manhattan p best then q else best) r)

/-! ## ForagingEnv (`ambiente_foraging.py`) -/

/-- Cell classification returned by `ForagingEnv._tipo_celula`. -/
inductive Celula where
  | ninho | parede | recurso | vazio
deriving DecidableEq, Repr

/-- State of `ForagingEnv`. -/
structure ForagingEnv where
  width : Int
  height : Int
  ninho : Pos
  walls : List Pos
  initial_resources : List Pos
  resources : List Pos
  step : Int
  agent_ids : List String
  agent_pos : List (String × Pos)
  carrying : List (String × Int)
  total_delivered : Int
deriving DecidableEq, Repr

namespace ForagingEnv

/-- `ForagingEnv._tipo_celula`: nest takes precedence over wall over resource. -/
def tipoCelula (env : ForagingEnv) (p : Pos) : Celula :=
  if p = env.ninho then .ninho
  else if p ∈ env.walls then .parede
  else if p ∈ env.resources then .recurso
  else .vazio

/-- Body of the placement loop of `ForagingEnv.reset`: one registered agent
is placed at its explicit spawn if one is given (unvalidated), else at the
nest, and its carrying flag is cleared. -/
def resetStep (agent_spawns : List (String × Pos)) (e : ForagingEnv)
    (aid : String) : ForagingEnv :=
  { e with
    agent_pos := dset e.agent_pos aid
      (match (agent_spawns.find? (fun q => q.1 = aid)) with
       | some q => q.2
       | none => e.ninho),
    carrying := dset e.carrying aid 0 }

/-- `ForagingEnv.reset`: restore resources, run the placement loop over the
registered agents, and clear the delivered counter. -/
def reset (env : ForagingEnv) (agent_spawns : List (String × Pos)) : ForagingEnv :=
  let env1 := { env with step := 0, resources := env.initial_resources }
  let env2 := env1.agent_ids.foldl (resetStep agent_spawns) env1
  { env2 with total_delivered := 0 }

/-- Local vision map of `ForagingEnv.observacaoPara`: `-1` wall/out of grid,
`1` resource present, `0` otherwise; `C` is the agent's own cell. -/
structure VisFor where
  L : Int
  R : Int
  U : Int
  D : Int
  C : Int
deriving DecidableEq, Repr

/-- Observation dict assembled by `ForagingEnv.observacaoPara`; optional
fields are present exactly when the corresponding sensor is installed. -/
structure FObs where
  pos : Pos
  visao : Option VisFor := none
  carrying : Option Int := none
  nest : Option Pos := none
  direcao_recurso : Option String := none
deriving DecidableEq, Repr

/-- One vision entry (`-1` wall / out of grid, else resource indicator). -/
def visCell (env : ForagingEnv) (c : Pos) : Int :=
  if 0 ≤ c.1 ∧ c.1 < env.width ∧ 0 ≤ c.2 ∧ c.2 < env.height then
    if c ∈ env.walls then -1
    else if c ∈ env.resources then 1 else 0
  else -1

/-- Direction (E/O/N/S/NONE) from `p` to the nearest resource, horizontal
axis first, following `ForagingEnv.observacaoPara`. -/
def direcaoRecurso (env : ForagingEnv) (p : Pos) : String :=
  match nearestRes p env.resources with
  | none => "NONE"
  | some r =>
    if r.1 > p.1 then "E"
    else if r.1 < p.1 then "O"
    else if r.2 < p.2 then "N"
    else if r.2 > p.2 then "S"
    else "NONE"

/-- `ForagingEnv.observacaoPara`, in state-passing form: the method body only
reads `self`, so the translation returns the environment unchanged. The
requesting agent is given by its id and the list of its sensor types. -/
def observacaoPara (env : ForagingEnv) (sensores : List String) (agId : String) :
    FObs × ForagingEnv :=
  let p := dget env.agent_pos agId (0, 0)
  let obs : FObs := { pos := p }
  let obs := if "visao" ∈ sensores then
      { obs with visao := some (VisFor.mk
          (visCell env (p.1 - 1, p.2))
          (visCell env (p.1 + 1, p.2))
          (visCell env (p.1, p.2 - 1))
          (visCell env (p.1, p.2 + 1))
          (if p ∈ env.resources then 1 else 0)) }
    else obs
  let obs := if "carregando" ∈ sensores then
      { obs with carrying := some (dget env.carrying agId 0) }
    else obs
  let obs := if "ninho" ∈ sensores then { obs with nest := some env.ninho } else obs
  let obs := if "recurso_mais_proximo" ∈ sensores then
      { obs with direcao_recurso := some (direcaoRecurso env p) }
    else obs
  (obs, env)

/-- Movement proposal of `ForagingEnv.agir` step 1: bounded single-cell move;
a move across the border leaves the position unchanged. -/
def destino (env : ForagingEnv) (p : Pos) (acao : String) : Pos :=
  if acao = "UP" ∧ p.2 > 0 then (p.1, p.2 - 1)
  else if acao = "DOWN" ∧ p.2 < env.height - 1 then (p.1, p.2 + 1)
  else if acao = "LEFT" ∧ p.1 > 0 then (p.1 - 1, p.2)
  else if acao = "RIGHT" ∧ p.1 < env.width - 1 then (p.1 + 1, p.2)
  else p

/-- Shaping term of `ForagingEnv.agir` step 3: `+0.05` when the Manhattan
distance to the current goal decreased, `-0.02` when it increased. -/
def shapingFor (distAntes distDepois : Int) : ℚ :=
  if distDepois < distAntes then 1/20
  else if distDepois > distAntes then -1/50
  else 0

/-- `ForagingEnv.agir`: returns `(reward, terminated)` and the updated
environment. Non-movement actions (`PICK`, `DROP`, `STAY`, …) return
`(0.0, False)` without touching the state. -/
def agir (env : ForagingEnv) (acao : String) (agId : String) :
    ℚ × Bool × ForagingEnv :=
  let pos_old := dget env.agent_pos agId env.ninho
  let carrying_before := dget env.carrying agId 0
  if acao = "UP" ∨ acao = "DOWN" ∨ acao = "LEFT" ∨ acao = "RIGHT" then
    let novo := destino env pos_old acao
    if novo ∈ env.walls then (-1/100, false, env)
    else
      let env1 := { env with agent_pos := dset env.agent_pos agId novo }
      let recompensa : ℚ := -1/100
      let tipo := env1.tipoCelula novo
      -- automatic PICK / DROP after the move
      let (recompensa, env2) :=
        if tipo = .recurso ∧ dget env1.carrying agId 0 = 0 then
          (recompensa + 2,
           { env1 with
              resources := env1.resources.filter (· ≠ novo),
              carrying := dset env1.carrying agId 1 })
        else if tipo = .ninho ∧ dget env1.carrying agId 0 = 1 then
          (recompensa + 5,
           { env1 with
              carrying := dset env1.carrying agId 0,
              total_delivered := env1.total_delivered + 1 })
        else (recompensa, env1)
      -- reward shaping towards the goal determined by the pre-move carrying flag
      let shaping :=
        if carrying_before = 0 then
          let recursosCalc :=
            if tipo = .recurso ∧ dget env2.carrying agId 0 = 1 then
              novo :: env2.resources
            else env2.resources
          if recursosCalc ≠ [] then
            shapingFor (minDist pos_old recursosCalc) (minDist novo recursosCalc)
          else 0
        else
          shapingFor (manhattan pos_old env.ninho) (manhattan novo env.ninho)
      (recompensa + shaping, false, env2)
  else
    (0, false, env)

/-- `ForagingEnv.atualizacao`: increment the global step counter. -/
def atualizacao (env : ForagingEnv) : ForagingEnv :=
  { env with step := env.step + 1 }

/-- `ForagingEnv.is_episode_done`: no resources remain. -/
def is_episode_done (env : ForagingEnv) : Bool :=
  env.resources.length = 0

end ForagingEnv

/-! ## FarolEnv (`ambiente_farol.py`) -/

/-- State of `FarolEnv`. -/
structure FarolEnv where
  size : Int
  farol : Pos
  max_steps : Int
  walls : List Pos
  step : Int
  agent_ids : List String
  agent_pos : List (String × Pos)
  done_agents : List String
deriving DecidableEq, Repr

namespace FarolEnv

/-- String-valued local vision map of `FarolEnv._visao`. -/
structure VisFarol where
  L : String
  R : String
  U : String
  D : String
  C : String
deriving DecidableEq, Repr

/-- Observation dict assembled by `FarolEnv.observacaoPara`. -/
structure LObs where
  pos : Pos
  direcao_farol : Option String := none
  visao : Option VisFarol := none
deriving DecidableEq, Repr

/-- `FarolEnv._dir`: relative direction of the beacon (E/O/S/N/NONE),
horizontal axis checked first. -/
def dir (env : FarolEnv) (p : Pos) : String :=
  if env.farol.1 > p.1 then "E"
  else if env.farol.1 < p.1 then "O"
  else if env.farol.2 > p.2 then "S"
  else if env.farol.2 < p.2 then "N"
  else "NONE"

/-- One entry of `FarolEnv._visao`: wall / beacon / first agent found in
dict order / empty; out-of-grid cells read as walls. -/
def visCell (env : FarolEnv) (c : Pos) : String :=
  if 0 ≤ c.1 ∧ c.1 < env.size ∧ 0 ≤ c.2 ∧ c.2 < env.size then
    if c ∈ env.walls then "PAREDE"
    else if c = env.farol then "FAROL"
    else
      match env.agent_pos.find? (fun q => q.2 = c) with
      | some q => "AG_" ++ q.1
      | none => "VAZIO"
  else "PAREDE"

/-- `FarolEnv._visao` for the five keys L/R/U/D/C. -/
def visao (env : FarolEnv) (p : Pos) : VisFarol :=
  { L := visCell env (p.1 - 1, p.2)
    R := visCell env (p.1 + 1, p.2)
    U := visCell env (p.1, p.2 - 1)
    D := visCell env (p.1, p.2 + 1)
    C := visCell env p }

/-- `FarolEnv.observacaoPara` in state-passing form: the body only reads
`self`, so the environment is returned unchanged. Sensor types are given as
a list of type strings (the loop over sensor objects writes the same value
for repeated sensors of one type, so membership is equivalent). -/
def observacaoPara (env : FarolEnv) (sensores : List String) (agId : String) :
    LObs × FarolEnv :=
  let p := dget env.agent_pos agId (0, 0)
  let obs : LObs := { pos := p }
  let obs := if "farol" ∈ sensores then
      { obs with direcao_farol := some (dir env p) } else obs
  let obs := if "visao" ∈ sensores then
      { obs with visao := some (visao env p) } else obs
  (obs, env)

/-- Movement proposal of `FarolEnv.agir`; `none` when the elif chain falls
through (unknown action, or a move across the border), which the source
answers with `(-0.01, False)` and no movement. -/
def destino (env : FarolEnv) (p : Pos) (acao : String) : Option Pos :=
  if acao = "UP" ∧ p.2 > 0 then some (p.1, p.2 - 1)
  else if acao = "DOWN" ∧ p.2 < env.size - 1 then some (p.1, p.2 + 1)
  else if acao = "LEFT" ∧ p.1 > 0 then some (p.1 - 1, p.2)
  else if acao = "RIGHT" ∧ p.1 < env.size - 1 then some (p.1 + 1, p.2)
  else none

/-- `FarolEnv.agir`: a done agent no longer moves; a wall destination blocks
the move with reward `0.0`; reaching the beacon pays `100` plus an
efficiency bonus computed from the acting agent's step counter; otherwise
`±0.01` shaping by the change of Manhattan distance to the beacon. -/
def agir (env : FarolEnv) (acao : String) (agId : String) (agSteps : Int) :
    ℚ × Bool × FarolEnv :=
  if agId ∈ env.done_agents then (0, true, env)
  else
    let p := dget env.agent_pos agId (0, 0)
    let dist_antes := manhattan p env.farol
    match destino env p acao with
    | none => (-1/100, false, env)
    | some novo =>
      if novo ∈ env.walls then
        (0, false, { env with agent_pos := dset env.agent_pos agId p })
      else
        let env1 := { env with agent_pos := dset env.agent_pos agId novo }
        if novo = env.farol then
          let steps_taken : ℚ := (agSteps : ℚ) + 1
          let efficiency_ratio := max 0 (1 - steps_taken / (env.max_steps : ℚ))
          (100 + 50 * efficiency_ratio, true,
           { env1 with done_agents := agId :: env1.done_agents })
        else
          let dist_depois := manhattan novo env.farol
          (if dist_depois < dist_antes then 1/100 else -1/100, false, env1)

/-- `FarolEnv.atualizacao`: increment the global step counter. -/
def atualizacao (env : FarolEnv) : FarolEnv :=
  { env with step := env.step + 1 }

/-- `FarolEnv.is_episode_done`: every registered agent id has reached the
beacon. -/
def is_episode_done (env : FarolEnv) : Bool :=
  env.done_agents.length = env.agent_ids.length

/-- The candidate spawn list of `FarolEnv.reset`: every cell of the grid,
column-major as in the source comprehension, minus the beacon and walls. -/
def posicoesDisponiveis (env : FarolEnv) : List Pos :=
  ((List.range env.size.toNat).flatMap (fun x =>
    (List.range env.size.toNat).map (fun y => (Int.ofNat x, Int.ofNat y)))).filter
    (fun p => p ≠ env.farol ∧ p ∉ env.walls)

/-- Python `list.pop()`: remove and return the last element. -/
def popLast {α : Type} (l : List α) : Option (α × List α) :=
  match l.reverse with
  | [] => none
  | x :: rest => some (x, rest.reverse)

/-- The second placement pass of `FarolEnv.reset`: agents without a valid
explicit spawn draw from the free shuffled cells, popping from the end;
running out of cells raises. -/
def colocaRestantes (env : FarolEnv) : List String → List (String × Pos) → List Pos →
    Except String (List (String × Pos))
  | [], assigned, _ => .ok assigned
  | aid :: rest, assigned, livres =>
    if (assigned.find? (fun q => q.1 = aid)).isSome then
      colocaRestantes env rest assigned livres
    else
      match popLast livres with
      | none => .error "Sem posicoes livres suficientes para todos os agentes"
      | some (p, livres') => colocaRestantes env rest (assigned ++ [(aid, p)]) livres'

/-- Spawn validity check of `FarolEnv.reset`: inside the grid, not the
beacon, not a wall. -/
def spawnValido (env : FarolEnv) (p : Pos) : Prop :=
  0 ≤ p.1 ∧ p.1 < env.size ∧ 0 ≤ p.2 ∧ p.2 < env.size ∧ p ≠ env.farol ∧ p ∉ env.walls

instance (env : FarolEnv) (p : Pos) : Decidable (spawnValido env p) := by
  unfold spawnValido; infer_instance

/-- `FarolEnv.reset`: explicit spawns are used only when valid; remaining
agents are placed on random free cells. `random.shuffle` is abstracted by
the `shuffle` oracle (the accompanying theorems assume it permutes its
input). -/
def reset (env : FarolEnv) (shuffle : List Pos → List Pos)
    (agent_spawns : List (String × Pos)) : Except String FarolEnv :=
  let env0 := { env with step := 0, done_agents := [] }
  let shuffled := shuffle (posicoesDisponiveis env0)
  let explicit := env0.agent_ids.foldl (fun acc aid =>
    match agent_spawns.find? (fun q => q.1 = aid) with
    | some q => if spawnValido env0 q.2 then acc ++ [(aid, q.2)] else acc
    | none => acc) []
  let livres := shuffled.filter (fun p => p ∉ explicit.map (·.2))
  match colocaRestantes env0 env0.agent_ids explicit livres with
  | .error e => .error e
  | .ok assigned => .ok { env0 with agent_pos := assigned }

end FarolEnv

/-! ## Q-learning agent (`agentes.py`, `QAgentBase` specialised by
`QAgentForaging`) -/

/-- Lookup in an association list with arbitrary decidable key type
(`k in dict` / `dict[k]`). -/
def aget {κ α : Type} [DecidableEq κ] (d : List (κ × α)) (k : κ) : Option α :=
  match d with
  | [] => none
  | (k', v) :: rest => if k' = k then some v else aget rest k

/-- Python `dict[k] = v` for arbitrary keys: replace the first binding of
`k`, else append at the end (dict insertion order). -/
def aset {κ α : Type} [DecidableEq κ] (d : List (κ × α)) (k : κ) (v : α) :
    List (κ × α) :=
  match d with
  | [] => [(k, v)]
  | (k', v') :: rest => if k' = k then (k, v) :: rest else (k', v') :: aset rest k v

open ForagingEnv in
/-- Abstract state key of `QAgentForaging._to_state`:
`(carrying, direcao_objetivo, no_objetivo, parede_bloqueando)`. -/
abbrev QState := Int × String × Bool × Bool

/-- A Q-table row: action name to Q-value. -/
abbrev QRow := List (String × ℚ)

/-- The Q-table: abstract state to action-value row. -/
abbrev QTable := List (QState × QRow)

/-- Python `visao.get(key, 0)` on a Foraging observation: `0` when the
vision map is absent. -/
def visGet (o : ForagingEnv.FObs) (f : ForagingEnv.VisFor → Int) : Int :=
  match o.visao with
  | some v => f v
  | none => 0

/-- `QAgentForaging._to_state`: compact task-focused state key. -/
def toState (o : ForagingEnv.FObs) : QState :=
  let carrying := o.carrying.getD 0
  let pos := o.pos
  let nest := o.nest.getD (0, 0)
  let direcao_objetivo :=
    if carrying = 0 then o.direcao_recurso.getD "NONE"
    else if nest.1 > pos.1 then "E"
    else if nest.1 < pos.1 then "O"
    else if nest.2 < pos.2 then "N"
    else if nest.2 > pos.2 then "S"
    else "NONE"
  let no_objetivo : Bool :=
    if carrying = 0 then decide (visGet o (·.C) = 1) else decide (pos = nest)
  let parede_bloqueando : Bool :=
    if direcao_objetivo = "N" then decide (visGet o (·.U) = -1)
    else if direcao_objetivo = "S" then decide (visGet o (·.D) = -1)
    else if direcao_objetivo = "E" then decide (visGet o (·.R) = -1)
    else if direcao_objetivo = "O" then decide (visGet o (·.L) = -1)
    else false
  (carrying, direcao_objetivo, no_objetivo, parede_bloqueando)

/-- Direction-to-action map shared by `_to_state` and
`_inicializar_estado` (`mapa_acao`). -/
def mapaAcao (d : String) : Option String :=
  if d = "N" then some "UP"
  else if d = "S" then some "DOWN"
  else if d = "E" then some "RIGHT"
  else if d = "O" then some "LEFT"
  else none

/-- `QAgentForaging._inicializar_estado`: optimistic deterministic priors. -/
def inicializar (acoes : List String) (estado : QState) : QRow :=
  let (_, direcao_obj, no_obj, parede) := estado
  acoes.map (fun acao =>
    (acao,
      if no_obj then 1/2
      else if mapaAcao direcao_obj = some acao then (if parede then 0 else 2)
      else (0 : ℚ)))

/-- Python `max(q_vals.values())` (the source only evaluates it on nonempty
rows; the empty case is given the junk value `0`). -/
def maxVals (row : QRow) : ℚ :=
  match row with
  | [] => 0
  | kv :: rest => rest.foldl (fun m kv' => max m kv'.2) kv.2

/-- Oracle for `random.choice`: pick the element indexed by the oracle
value modulo the list length (the source only draws from nonempty lists). -/
def listChoice (l : List String) (k : Nat) : String :=
  l.getD (k % l.length) ""

/-- Oracle values consumed by one `age()` call: the `random.random()` draw
for ε-exploration and the `random.choice` index. -/
structure StepRng where
  roll : ℚ
  pick : Nat

/-- State of `QAgentForaging` (fields of `AgenteBase` and `QAgentBase`). -/
structure QAgent where
  id : String
  modo : String
  sensores : List String
  ultima_observacao : Option ForagingEnv.FObs
  acoes : List String
  alpha : ℚ
  gamma : ℚ
  epsilon : ℚ
  epsilon_min : ℚ
  epsilon_decay : ℚ
  alpha_min : ℚ
  alpha_decay : ℚ
  qtable : QTable
  estado_anterior : Option QState
  acao_anterior : Option String
  episodio_atual : Int
  _current_reward : ℚ
  _current_steps : Int
  episode_rewards : List ℚ
  episode_lengths : List Int
  position_heatmap : List (Pos × Int)
deriving DecidableEq, Repr

namespace QAgent

/-- `AgenteBase.observacao`: store the received observation. -/
def observacao (ag : QAgent) (o : ForagingEnv.FObs) : QAgent :=
  { ag with ultima_observacao := some o }

/-- Body of `QAgentBase.age` after the missing-observation guard
(the observation is read from `ultima_observacao`; both environments always
put `pos` in the observation, so the heatmap update is unconditional). -/
def ageGo (ag : QAgent) (rng : StepRng) : String × QAgent :=
  let o := ag.ultima_observacao.getD { pos := (0, 0) }
  let hm := aset ag.position_heatmap o.pos (((aget ag.position_heatmap o.pos).getD 0) + 1)
  let estado := toState o
  let qt := if (aget ag.qtable estado).isSome then ag.qtable
            else aset ag.qtable estado (inicializar ag.acoes estado)
  let escolha :=
    if ag.modo = "learn" ∧ rng.roll < ag.epsilon then
      listChoice ag.acoes rng.pick
    else
      let row := (aget qt estado).getD []
      let melhores := (row.filter (fun kv => kv.2 = maxVals row)).map (·.1)
      listChoice melhores rng.pick
  (escolha,
   { ag with
      position_heatmap := hm
      qtable := qt
      estado_anterior := some estado
      acao_anterior := some escolha
      _current_steps := ag._current_steps + 1 })

/-- `QAgentBase.age`: raises when no observation has been delivered yet,
otherwise ε-greedy selection. -/
def age (ag : QAgent) (rng : StepRng) : Except String (String × QAgent) :=
  match ag.ultima_observacao with
  | none => .error ("[" ++ ag.id ++ "] age() chamado sem observacao")
  | some _ => .ok (ageGo ag rng)

/-- The one-step Q-learning table update of `QAgentBase.avaliacaoEstadoAtual`:
insert an all-zero row for an unseen next state `s'`, then
`Q(s,a) += alpha * (r + gamma * max Q(s',.) - Q(s,a))`. -/
def qlearnUpdate (qt : QTable) (acoes : List String) (alpha gamma : ℚ)
    (s : QState) (a : String) (r : ℚ) (s' : QState) : QTable :=
  let qt1 := if (aget qt s').isSome then qt
             else aset qt s' (acoes.map (fun x => (x, (0 : ℚ))))
  let row_s := (aget qt1 s).getD []
  let q_antigo := dget row_s a 0
  let q_max_prox := maxVals ((aget qt1 s').getD [])
  let q_novo := q_antigo + alpha * (r + gamma * q_max_prox - q_antigo)
  aset qt1 s (dset row_s a q_novo)

/-- `QAgentBase.avaliacaoEstadoAtual`: accumulate the reward; in learning
mode with a pending `(s, a)` pair, apply the Q-learning update where `s'`
is abstracted from the most recent observation. (With a pending pair the
engine has always delivered an observation; on `None` the source would
raise inside `_to_state`, a branch no claim exercises.) -/
def avaliacaoEstadoAtual (ag : QAgent) (recompensa : ℚ) : QAgent :=
  let ag1 := { ag with _current_reward := ag._current_reward + recompensa }
  if ag.modo ≠ "learn" then ag1
  else
    match ag.estado_anterior, ag.acao_anterior, ag.ultima_observacao with
    | some s, some a, some o =>
      { ag1 with qtable :=
          qlearnUpdate ag1.qtable ag1.acoes ag1.alpha ag1.gamma s a recompensa (toState o) }
    | _, _, _ => ag1

/-- `QAgentBase.reset` (including `AgenteBase.reset`): save episode metrics,
clear per-episode state, and in learning mode decay ε and α toward their
floors, with the accelerated extra decay after episode 100. -/
def reset (ag : QAgent) (episodio : Int) : QAgent :=
  let ag1 :=
    if ag._current_steps > 0 ∨ ag._current_reward ≠ 0 then
      { ag with
          episode_rewards := ag.episode_rewards ++ [ag._current_reward]
          episode_lengths := ag.episode_lengths ++ [ag._current_steps] }
    else ag
  let ag2 := { ag1 with
      _current_reward := 0
      _current_steps := 0
      ultima_observacao := none
      estado_anterior := none
      acao_anterior := none
      episodio_atual := episodio }
  if ag.modo = "learn" then
    let eps1 := max ag.epsilon_min (ag.epsilon * ag.epsilon_decay)
    let alp1 := max ag.alpha_min (ag.alpha * ag.alpha_decay)
    { ag2 with
        epsilon := if episodio > 100 then max ag.epsilon_min (eps1 * (4/5)) else eps1
        alpha := if episodio > 100 then max ag.alpha_min (alp1 * (17/20)) else alp1 }
  else ag2

end QAgent

/-! ## Fixed-policy agent (`agentes.py`, `FixedAgent`) -/

/-- State of `FixedAgent`: a fixed decision function over observations. -/
structure FixedAgent where
  id : String
  modo : String
  sensores : List String
  ultima_observacao : Option ForagingEnv.FObs
  politica : ForagingEnv.FObs → String
  _current_reward : ℚ
  _current_steps : Int

namespace FixedAgent

/-- `FixedAgent.age`: raises when no observation has been delivered yet,
otherwise applies the policy function and counts the step. -/
def age (ag : FixedAgent) : Except String (String × FixedAgent) :=
  match ag.ultima_observacao with
  | none => .error ("[" ++ ag.id ++ "] age() chamado sem observacao")
  | some o => .ok (ag.politica o, { ag with _current_steps := ag._current_steps + 1 })

end FixedAgent

/-! ## Genetic-algorithm agent (`agentes.py`, `GAAgentBase` with the
`GAAgentForaging` feature extraction) -/

/-- State of the genetic-policy agent (fields of `AgenteBase` and
`GAAgentBase`). `best_fitness` is a Python float initialised to `-inf`,
embedded as `WithBot ℚ` with `⊥` for `-inf`. -/
structure GAAgent where
  id : String
  modo : String
  sensores : List String
  ultima_observacao : Option ForagingEnv.FObs
  lista_acoes : List String
  feature_dim : Nat
  mutation_rate : ℚ
  mutation_scale : ℚ
  population_size : Nat
  population : List (ℚ × List ℚ)
  genome : List ℚ
  best_genome : List ℚ
  best_fitness : WithBot ℚ
  _episode_reward : ℚ
  _current_reward : ℚ
  _current_steps : Int
  episode_rewards : List ℚ
  episode_lengths : List Int
  position_heatmap : List (Pos × Int)
  episode_heatmap : List (Pos × Int)
  recent_positions : List Pos
  stuck_counter : Int
deriving DecidableEq, Repr

namespace GAAgent

/-- Python `norm_res` inside `GAAgentForaging._to_features`. -/
def normRes (v : Int) : ℚ :=
  if v < 0 then 0 else (min (v : ℚ) 5) / 5

/-- `GAAgentForaging._to_features`: length-10 feature vector. -/
def toFeatures (o : ForagingEnv.FObs) : List ℚ :=
  let x := o.pos.1
  let y := o.pos.2
  let nest := o.nest.getD (0, 0)
  [(x : ℚ) / 10, (y : ℚ) / 10,
   normRes (visGet o (·.L)), normRes (visGet o (·.R)),
   normRes (visGet o (·.U)), normRes (visGet o (·.D)),
   normRes (visGet o (·.C)),
   ((o.carrying.getD 0 : Int) : ℚ),
   ((nest.1 - x : Int) : ℚ) / 10, ((nest.2 - y : Int) : ℚ) / 10]

/-- `GAAgentBase._forward`: matrix-vector product of the flattened genome
with the feature vector. -/
def forward (genome : List ℚ) (feature_dim nActions : Nat) (feats : List ℚ) : List ℚ :=
  (List.range nActions).map (fun a =>
    (List.range feature_dim).foldl
      (fun s f => s + genome.getD (a * feature_dim + f) 0 * feats.getD f 0) 0)

/-- Python `max(scores)` on a nonempty list (junk value `0` on `[]`). -/
def maxScore (scores : List ℚ) : ℚ :=
  match scores with
  | [] => 0
  | s :: rest => rest.foldl max s

/-- Python `max(range(n), key=scores.__getitem__)`: the first index with the
maximal score. -/
def argmaxIdx (scores : List ℚ) : Nat :=
  (List.range scores.length).foldl
    (fun b i => if scores.getD i 0 > scores.getD b 0 then i else b) 0

/-- The cumulative-probability sampling loop of `GAAgentBase.age`: first
index whose running sum reaches the draw, `0` when the loop falls through. -/
def chooseIdx : List ℚ → ℚ → ℚ → Nat → Nat
  | [], _, _, _ => 0
  | p :: ps, r, cum, i => if r ≤ cum + p then i else chooseIdx ps r (cum + p) (i + 1)

/-- The three-phase softmax temperature schedule of `GAAgentBase.age`. -/
def temperatura (current_episode : Nat) : ℚ :=
  if current_episode < 100 then 1 - 8/10 * ((current_episode : ℚ) / 100)
  else if current_episode < 200 then 2/10 - 15/100 * (((current_episode : ℚ) - 100) / 100)
  else 1/20

/-- Oracle values consumed by one `GAAgentBase.age` call. -/
structure GaRng where
  pickNone : Nat
  pickStuck : Nat
  roll : ℚ
  pickFallback : Nat

/-- `GAAgentBase.age`. With no observation yet it returns a uniformly random
action (it does NOT raise). With an observation it updates heatmaps and the
anti-stagnation counter, possibly forces a random action, and otherwise
selects by softmax (learning mode, `math.exp` abstracted as `expFn`; exact
rational arithmetic has no NaN, so the degenerate-softmax fallback guard is
`total ≤ 0`) or greedily (other modes). A feature-vector length mismatch
raises `ValueError`. -/
def age (ag : GAAgent) (expFn : ℚ → ℚ) (rng : GaRng) :
    Except String (String × GAAgent) :=
  match ag.ultima_observacao with
  | none =>
    .ok (listChoice ag.lista_acoes rng.pickNone,
      { ag with _current_steps := ag._current_steps + 1 })
  | some o =>
    let pos := o.pos
    let hm := aset ag.position_heatmap pos (((aget ag.position_heatmap pos).getD 0) + 1)
    let ehm := aset ag.episode_heatmap pos (((aget ag.episode_heatmap pos).getD 0) + 1)
    let rp0 := ag.recent_positions ++ [pos]
    let rp := if rp0.length > 8 then rp0.tail else rp0
    let stuck :=
      if rp.length ≥ 4 then
        let unique4 := (rp.drop (rp.length - 4)).dedup.length
        if unique4 ≤ 2 then ag.stuck_counter + 2
        else if rp.length ≥ 8 ∧ rp.dedup.length ≤ 3 then ag.stuck_counter + 1
        else max 0 (ag.stuck_counter - 1)
      else ag.stuck_counter
    let ag1 :=
      { ag with
          position_heatmap := hm
          episode_heatmap := ehm
          recent_positions := rp }
    if rp.length ≥ 4 ∧ stuck ≥ 2 ∧ ag.modo = "learn" then
      .ok (listChoice ag.lista_acoes rng.pickStuck,
        { ag1 with stuck_counter := 0, _current_steps := ag._current_steps + 1 })
    else
      let feats := toFeatures o
      if feats.length ≠ ag.feature_dim then
        .error ("Expected feature_dim mismatch in " ++ ag.id)
      else
        let scores := forward ag.genome ag.feature_dim ag.lista_acoes.length feats
        let acao :=
          if ag.modo = "learn" then
            let tau := temperatura ag.episode_rewards.length
            let max_s := maxScore scores
            let exp_scores := scores.map (fun s => expFn ((s - max_s) / tau))
            let total := exp_scores.sum
            if total ≤ 0 then listChoice ag.lista_acoes rng.pickFallback
            else
              let probs := exp_scores.map (· / total)
              ag.lista_acoes.getD (chooseIdx probs rng.roll 0 0) ""
          else ag.lista_acoes.getD (argmaxIdx scores) ""
        .ok (acao,
          { ag1 with stuck_counter := stuck, _current_steps := ag._current_steps + 1 })

/-- `GAAgentBase.avaliacaoEstadoAtual`: accumulate the reward as the fitness
signal. -/
def avaliacaoEstadoAtual (ag : GAAgent) (recompensa : ℚ) : GAAgent :=
  { ag with
      _current_reward := ag._current_reward + recompensa
      _episode_reward := ag._episode_reward + recompensa }

/-- `GAAgentBase._mutate`: per-weight coin against the decayed rate, Gaussian
noise scaled by the decayed magnitude (`random.gauss(0, σ) = σ·N(0,1)`,
with the standard draws supplied by the `noise` oracle). -/
def mutate (base_genome : List ℚ) (generation : Int)
    (coins noise : Nat → ℚ) : List ℚ :=
  let decay_factor := max (1/4) (1 - (generation : ℚ) / 300)
  let effective_rate := 1/50 * decay_factor
  let effective_scale := 1/20 * decay_factor
  base_genome.mapIdx (fun i w =>
    if coins i < effective_rate then w + effective_scale * noise i else w)

/-- `GAAgentBase._crossover`: block-wise crossover, blocks of `feature_dim`
weights alternately biased 70% toward one parent. -/
def crossover (parent1 parent2 : List ℚ) (feature_dim : Nat)
    (coins : Nat → ℚ) : List ℚ :=
  (parent1.zip parent2).mapIdx (fun i w =>
    if (i / feature_dim) % 2 = 0 then (if coins i < 7/10 then w.1 else w.2)
    else (if coins i < 7/10 then w.2 else w.1))

/-- Stable descending insertion by fitness, modelling Python's stable
`list.sort(key=fitness, reverse=True)`. -/
def insereDesc (x : ℚ × List ℚ) : List (ℚ × List ℚ) → List (ℚ × List ℚ)
  | [] => [x]
  | y :: ys => if x.1 ≥ y.1 then x :: y :: ys else y :: insereDesc x ys

/-- Stable descending sort by fitness. -/
def ordenaDesc (l : List (ℚ × List ℚ)) : List (ℚ × List ℚ) :=
  l.foldr insereDesc []

/-- Oracle values consumed by one `GAAgentBase.reset` call. -/
structure GaResetRng where
  explore : ℚ
  branch : ℚ
  xcoins : Nat → ℚ
  mcoins : Nat → ℚ
  noise : Nat → ℚ

/-- `GAAgentBase.reset`: at an episode boundary with at least one step
taken, in learning mode: insert the finished genome with its fitness
(base `_calc_fitness`: the cumulative episode reward) into the elite
population (sorted descending, truncated), update the running best only on
strict improvement, and choose the next genome (90% the unmodified best;
with probability 10% before episode 400, crossover of the two top members
or a decayed mutation of the best). Per-episode counters are then cleared. -/
def reset (ag : GAAgent) (rng : GaResetRng) (episodio : Int) : GAAgent :=
  let agU :=
    if ag._current_steps > 0 then
      let fitness := ag._episode_reward
      if ag.modo = "learn" then
        let pop1 := (ordenaDesc (ag.population ++ [(fitness, ag.genome)])).take
          ag.population_size
        let melhora : Bool := (fitness : WithBot ℚ) > ag.best_fitness
        let bf := if melhora then (fitness : WithBot ℚ) else ag.best_fitness
        let bg := if melhora then ag.genome else ag.best_genome
        let genome' :=
          if rng.explore < 1/10 ∧ episodio < 400 then
            if pop1.length ≥ 2 ∧ rng.branch < 1/2 then
              let parent2 := if pop1.length > 1 then (pop1.getD 1 (0, bg)).2 else bg
              mutate (crossover bg parent2 ag.feature_dim rng.xcoins) episodio
                rng.mcoins rng.noise
            else mutate bg episodio rng.mcoins rng.noise
          else bg
        { ag with population := pop1, best_fitness := bf, best_genome := bg,
                  genome := genome' }
      else ag
    else ag
  { agU with
      _current_reward := 0
      _current_steps := 0
      _episode_reward := 0
      ultima_observacao := none
      recent_positions := []
      stuck_counter := 0
      episode_heatmap := [] }

end GAAgent

/-! ## Scripted policies (`policies.py`) -/

/-- `policy_foraging_inteligente`: return to the nest and `DROP` when
carrying, `PICK` on a resource, chase an adjacent resource, else a random
move (abstracted by the `pick` oracle). Inner `return`s of the carrying
block are flattened into the `else` chain; when carrying and not at the
nest one of the four direction cases always fires. -/
def policy_foraging_inteligente (o : ForagingEnv.FObs) (pick : Nat) : String :=
  let pos := o.pos
  let ninho := o.nest.getD (0, 0)
  if o.carrying.getD 0 = 1 ∧ pos = ninho then "DROP"
  else if o.carrying.getD 0 = 1 ∧ ninho.1 > pos.1 then "RIGHT"
  else if o.carrying.getD 0 = 1 ∧ ninho.1 < pos.1 then "LEFT"
  else if o.carrying.getD 0 = 1 ∧ ninho.2 > pos.2 then "DOWN"
  else if o.carrying.getD 0 = 1 ∧ ninho.2 < pos.2 then "UP"
  else if visGet o (·.C) > 0 then "PICK"
  else if visGet o (·.L) > 0 then "LEFT"
  else if visGet o (·.R) > 0 then "RIGHT"
  else if visGet o (·.U) > 0 then "UP"
  else if visGet o (·.D) > 0 then "DOWN"
  else listChoice ["UP", "DOWN", "LEFT", "RIGHT"] pick

/-! ## Simulation engine (`engine.py`, `MotorDeSimulacao.executa`): one
iteration of the inner step loop, for a `ForagingEnv` driven by Q-learning
agents. Per-agent randomness is supplied by the stream `rng : Nat → StepRng`
(agent `i` consumes `rng i`). Rewards are positional (the source keys them
by agent id; ids are distinct in any valid configuration). -/

/-- Observation the engine pulls for an agent (`self.ambiente.observacaoPara(ag)`). -/
def fObs (env : ForagingEnv) (ag : QAgent) : ForagingEnv.FObs :=
  (env.observacaoPara ag.sensores ag.id).1

/-- Engine phase 1 and phase 5: deliver a fresh observation to every agent. -/
def obsPhase (env : ForagingEnv) (ags : List QAgent) : List QAgent :=
  ags.map (fun ag => ag.observacao (fObs env ag))

/-- Engine phase 2: every agent decides an action (`ag.age()`), collecting
`lista_acoes`; the bodies run under the observation delivered in phase 1. -/
def decidePhase : List QAgent → (Nat → StepRng) → Nat → List (String × QAgent)
  | [], _, _ => []
  | ag :: rest, rng, i => QAgent.ageGo ag (rng i) :: decidePhase rest rng (i + 1)

/-- Engine phase 2 as in the source, where `age()` may raise on a missing
observation. -/
def decidePhaseM : List QAgent → (Nat → StepRng) → Nat →
    Except String (List (String × QAgent))
  | [], _, _ => .ok []
  | ag :: rest, rng, i =>
    match ag.age (rng i) with
    | .error e => .error e
    | .ok (acao, ag') =>
      match decidePhaseM rest rng (i + 1) with
      | .error e => .error e
      | .ok ps => .ok ((acao, ag') :: ps)

/-- Engine phase 3: the environment executes all chosen actions in agent
order, collecting the per-step rewards. -/
def actPhase : ForagingEnv → List (String × QAgent) → ForagingEnv × List ℚ
  | env, [] => (env, [])
  | env, (acao, ag) :: rest =>
    let res := env.agir acao ag.id
    let rec' := actPhase res.2.2 rest
    (rec'.1, res.1 :: rec'.2)

/-- Engine phase 5: fresh post-transition observation for every agent. -/
def learnObsPhase (env : ForagingEnv) (pares : List (String × QAgent)) : List QAgent :=
  pares.map (fun p => (p.2).observacao (fObs env p.2))

/-- Engine phase 6: deliver the step rewards to the learning hooks. -/
def learnPhase (ags : List QAgent) (rs : List ℚ) : List QAgent :=
  List.zipWith QAgent.avaliacaoEstadoAtual ags rs

/-- One full iteration of the engine's inner step loop (phases 1-7 plus the
second `atualizacao` call of the source), with `age()` total (phase 1 has
always delivered an observation; see `engineStep` below for the raising
variant). Returns the environment, the agents and the episode-done flag. -/
def engineRun (env : ForagingEnv) (ags : List QAgent) (rng : Nat → StepRng) :
    ForagingEnv × List QAgent × Bool :=
  let ags1 := obsPhase env ags
  let pares := decidePhase ags1 rng 0
  let ar := actPhase env pares
  let env3 := ar.1.atualizacao
  let ags3 := learnObsPhase env3 pares
  let ags4 := learnPhase ags3 ar.2
  let done := env3.is_episode_done
  let env4 := env3.atualizacao
  (env4, ags4, done)

/-- One full iteration of the engine's inner step loop, with the raising
`age()` of the source. -/
def engineStep (env : ForagingEnv) (ags : List QAgent) (rng : Nat → StepRng) :
    Except String (ForagingEnv × List QAgent × Bool) :=
  let ags1 := obsPhase env ags
  match decidePhaseM ags1 rng 0 with
  | .error e => .error e
  | .ok pares =>
    let ar := actPhase env pares
    let env3 := ar.1.atualizacao
    let ags3 := learnObsPhase env3 pares
    let ags4 := learnPhase ags3 ar.2
    let done := env3.is_episode_done
    let env4 := env3.atualizacao
    .ok (env4, ags4, done)

/-- Junk agent used as the default of positional lookups. -/
def dfltQAgent : QAgent :=
  { id := "", modo := "", sensores := [], ultima_observacao := none,
    acoes := [], alpha := 0, gamma := 0, epsilon := 0, epsilon_min := 0,
    epsilon_decay := 0, alpha_min := 0, alpha_decay := 0, qtable := [],
    estado_anterior := none, acao_anterior := none, episodio_atual := 0,
    _current_reward := 0, _current_steps := 0, episode_rewards := [],
    episode_lengths := [], position_heatmap := [] }

/-! ## Concrete fixtures used by witnesses and counterexamples -/

/-- Sensor set the engine installs on a `QAgentForaging`. -/
def cSensores : List String := ["visao", "ninho", "carregando", "recurso_mais_proximo"]

/-- A freshly constructed learning-mode `QAgentForaging`
(default hyper-parameters of `QAgentBase.__init__` / `QAgentForaging.__init__`). -/
def cQL : QAgent :=
  { dfltQAgent with
      id := "q1", modo := "learn", sensores := cSensores,
      acoes := ["UP", "DOWN", "LEFT", "RIGHT"],
      alpha := 3/10, gamma := 99/100, epsilon := 9/10,
      epsilon_min := 1/100, epsilon_decay := 997/1000,
      alpha_min := 1/100, alpha_decay := 99/100 }

/-- A 3×3 foraging world: nest `(0,0)`, one resource at `(2,2)`, agent `q1`
standing next to the resource. -/
def cEnvA : ForagingEnv :=
  { width := 3, height := 3, ninho := (0, 0), walls := [],
    initial_resources := [(2, 2)], resources := [(2, 2)], step := 0,
    agent_ids := ["q1"], agent_pos := [("q1", (1, 2))],
    carrying := [("q1", 0)], total_delivered := 0 }

/-- Oracle draw: no ε-exploration (`0.95 ≥ ε`), first choice. -/
def cRngQ : StepRng := { roll := 95/100, pick := 0 }

/-- A test-mode Q-agent with an empty table that has just received an
observation (as after engine phase 1). -/
def cQT : QAgent :=
  { cQL with modo := "test", ultima_observacao := some (fObs cEnvA cQL) }

/-- Foraging world whose single resource lies on the nest cell, with agent
`a1` standing beside the nest and carrying nothing. -/
def cEnvNestRes : ForagingEnv :=
  { width := 2, height := 2, ninho := (0, 0), walls := [],
    initial_resources := [(0, 0)], resources := [(0, 0)], step := 0,
    agent_ids := ["a1"], agent_pos := [("a1", (1, 0))],
    carrying := [("a1", 0)], total_delivered := 0 }

/-- Foraging world with a registered agent and no explicit spawn. -/
def cEnvF3 : ForagingEnv :=
  { width := 3, height := 3, ninho := (1, 1), walls := [(0, 1)],
    initial_resources := [(2, 2)], resources := [(2, 2)], step := 7,
    agent_ids := ["a1"], agent_pos := [], carrying := [], total_delivered := 0 }

/-- A 2×2 beacon world with one registered agent. -/
def cEnvL : FarolEnv :=
  { size := 2, farol := (1, 1), max_steps := 100, walls := [], step := 0,
    agent_ids := ["a1"], agent_pos := [], done_agents := [] }

/-- A genetic agent in learning mode that has not yet received any
observation this episode. -/
def cGA : GAAgent :=
  { id := "g1", modo := "learn", sensores := cSensores,
    ultima_observacao := none,
    lista_acoes := ["UP", "DOWN", "LEFT", "RIGHT"], feature_dim := 10,
    mutation_rate := 1/10, mutation_scale := 1/10, population_size := 30,
    population := [], genome := List.replicate 40 0,
    best_genome := List.replicate 40 0, best_fitness := ⊥,
    _episode_reward := 0, _current_reward := 0, _current_steps := 0,
    episode_rewards := [], episode_lengths := [], position_heatmap := [],
    episode_heatmap := [], recent_positions := [], stuck_counter := 0 }

/-- A scripted agent that has not yet received any observation. -/
def cFix : FixedAgent :=
  { id := "f1", modo := "test", sensores := ["ninho"],
    ultima_observacao := none,
    politica := fun o => policy_foraging_inteligente o 0,
    _current_reward := 0, _current_steps := 0 }

/-- Oracle draws for one GA `age()` call. -/
def cRngGA : GAAgent.GaRng :=
  { pickNone := 0, pickStuck := 0, roll := 1/2, pickFallback := 0 }

/-- Oracle draws for one GA `reset()` call: no exploration (`0.5 ≥ 0.1`). -/
def cRngGAReset : GAAgent.GaResetRng :=
  { explore := 1/2, branch := 1/2, xcoins := fun _ => 1, mcoins := fun _ => 1,
    noise := fun _ => 0 }

/-- Constant per-agent randomness stream for one engine iteration. -/
def cRngStream : Nat → StepRng := fun _ => cRngQ

/-- The result of `cEnvL.reset id []`: agent `a1` drawn from the free cells. -/
def cEnvL' : FarolEnv :=
  { cEnvL with step := 0, done_agents := [], agent_pos := [("a1", (1, 0))] }

/-- A cell inside the Foraging grid. -/
def ForagingEnv.dentro (env : ForagingEnv) (p : Pos) : Prop :=
  0 ≤ p.1 ∧ p.1 < env.width ∧ 0 ≤ p.2 ∧ p.2 < env.height

instance (env : ForagingEnv) (p : Pos) : Decidable (ForagingEnv.dentro env p) := by
  unfold ForagingEnv.dentro; infer_instance

/-- A cell inside the Farol grid. -/
def FarolEnv.dentro (env : FarolEnv) (p : Pos) : Prop :=
  0 ≤ p.1 ∧ p.1 < env.size ∧ 0 ≤ p.2 ∧ p.2 < env.size

instance (env : FarolEnv) (p : Pos) : Decidable (FarolEnv.dentro env p) := by
  unfold FarolEnv.dentro; infer_instance

/-- The load-bearing ordering property of one engine step-loop iteration
(claim C1): the agent state fed to the learning hook carries a fresh
observation of the environment as it stands after ALL agents' actions of
this step have been applied (`ar.1`), and in learning mode the Q-update is
performed with next-state key `s'` abstracted from exactly that
post-transition observation. -/
def C1Prop (env : ForagingEnv) (ags : List QAgent) (rng : Nat → StepRng)
    (i : Nat) : Prop :=
  let pares := decidePhase (obsPhase env ags) rng 0
  let ar := actPhase env pares
  let agPre := (pares.getD i ("", dfltQAgent)).2
  let agFresh := agPre.observacao (fObs ar.1 agPre)
  let agFinal := (engineRun env ags rng).2.1.getD i dfltQAgent
  agFinal = agFresh.avaliacaoEstadoAtual (ar.2.getD i 0) ∧
  (agFresh.modo = "learn" →
    ∀ s a, agFresh.estado_anterior = some s → agFresh.acao_anterior = some a →
      agFinal.qtable = QAgent.qlearnUpdate agFresh.qtable agFresh.acoes
        agFresh.alpha agFresh.gamma s a (ar.2.getD i 0) (toState (fObs ar.1 agPre)))

/-! ## Helper lemmas -/

theorem dget_dset_self {α : Type} (d : List (String × α)) (k : String) (v v0 : α) :
    dget (dset d k v) k v0 = v := by
  induction d with
  | nil => simp [dset, dget]
  | cons h t ih =>
    obtain ⟨k', v'⟩ := h
    by_cases hk : k' = k
    · simp [dset, dget, hk]
    · simp [dset, dget, hk, ih]

theorem dget_dset_ne {α : Type} (d : List (String × α)) (k k' : String) (v : α)
    (v0 : α) (h : k ≠ k') : dget (dset d k v) k' v0 = dget d k' v0 := by
  induction d with
  | nil => simp [dset, dget, h]
  | cons hd t ih =>
    obtain ⟨k'', v''⟩ := hd
    by_cases hk : k'' = k
    · subst hk; simp [dset, dget, h]
    · simp [dset, dget, hk, ih]

theorem aget_aset_self {κ α : Type} [DecidableEq κ] (d : List (κ × α)) (k : κ) (v : α) :
    aget (aset d k v) k = some v := by
  induction d with
  | nil => simp [aset, aget]
  | cons h t ih =>
    obtain ⟨k', v'⟩ := h
    by_cases hk : k' = k
    · simp [aset, aget, hk]
    · simp [aset, aget, hk, ih]

theorem aget_aset_ne {κ α : Type} [DecidableEq κ] (d : List (κ × α)) (k k' : κ) (v : α)
    (h : k ≠ k') : aget (aset d k v) k' = aget d k' := by
  induction d with
  | nil => simp [aset, aget, h]
  | cons hd t ih =>
    obtain ⟨k'', v''⟩ := hd
    by_cases hk : k'' = k
    · subst hk; simp [aset, aget, h]
    · simp [aset, aget, hk, ih]

theorem getD_map_of_lt {α β : Type} (f : α → β) :
    ∀ (l : List α) (i : Nat), i < l.length → ∀ (d : α) (d' : β),
      (l.map f).getD i d' = f (l.getD i d)
  | [], i, h, _, _ => by simp at h
  | a :: t, 0, _, d, d' => by simp
  | a :: t, i + 1, h, d, d' => by
      simp only [List.map_cons, List.getD_cons_succ]
      exact getD_map_of_lt f t i (by simpa using h) d d'

theorem getD_zipWith_of_lt {α β γ : Type} (f : α → β → γ) :
    ∀ (l1 : List α) (l2 : List β) (i : Nat), i < l1.length → i < l2.length →
      ∀ (d1 : α) (d2 : β) (d3 : γ),
        (List.zipWith f l1 l2).getD i d3 = f (l1.getD i d1) (l2.getD i d2)
  | [], _, i, h1, _, _, _, _ => by simp at h1
  | _ :: _, [], i, _, h2, _, _, _ => by simp at h2
  | a :: t1, b :: t2, 0, _, _, d1, d2, d3 => by simp
  | a :: t1, b :: t2, i + 1, h1, h2, d1, d2, d3 => by
      simp only [List.zipWith_cons_cons, List.getD_cons_succ]
      exact getD_zipWith_of_lt f t1 t2 i (by simpa using h1) (by simpa using h2) d1 d2 d3

theorem decidePhase_length : ∀ (l : List QAgent) (rng : Nat → StepRng) (i : Nat),
    (decidePhase l rng i).length = l.length
  | [], _, _ => rfl
  | _ :: t, rng, i => by simp [decidePhase, decidePhase_length t rng (i + 1)]

theorem actPhase_snd_length : ∀ (env : ForagingEnv) (l : List (String × QAgent)),
    (actPhase env l).2.length = l.length
  | _, [] => rfl
  | env, (acao, ag) :: t => by
      simp [actPhase, actPhase_snd_length _ t]

theorem shapingFor_bounds (a b : Int) :
    -1/50 ≤ ForagingEnv.shapingFor a b ∧ ForagingEnv.shapingFor a b ≤ 1/20 := by
  unfold ForagingEnv.shapingFor
  split <;> [norm_num; (split <;> norm_num)]

theorem listChoice_mem (l : List String) (k : Nat) (h : l ≠ []) :
    listChoice l k ∈ l := by
  unfold listChoice
  have hlen : 0 < l.length := List.length_pos.mpr h
  have hk : k % l.length < l.length := Nat.mod_lt _ hlen
  rw [List.getD_eq_getElem l _ hk]
  exact List.getElem_mem hk

theorem fObs_atualizacao (env : ForagingEnv) (ag : QAgent) :
    fObs env.atualizacao ag = fObs env ag := rfl

theorem agir_step_fixo (env : ForagingEnv) (acao agId : String) :
    (env.agir acao agId).2.2.step = env.step := by
  unfold ForagingEnv.agir
  dsimp only
  split_ifs <;> rfl

theorem actPhase_fst_step (l : List (String × QAgent)) :
    ∀ (e : ForagingEnv), (actPhase e l).1.step = e.step := by
  induction l with
  | nil => intro e; rfl
  | cons hd t ih =>
    intro e
    obtain ⟨acao, ag⟩ := hd
    simp only [actPhase]
    rw [ih, agir_step_fixo]

/-! ## Claims -/

/-- C9: for both environments, `observe` is a pure function of the current
state and the requesting agent's sensors: the state-passing translation of
`observacaoPara` returns the environment unchanged, and two consecutive
calls with no intervening step return identical observation values. -/
theorem observacao_pure_and_idempotent
    (envF : ForagingEnv) (envL : FarolEnv) (sens : List String) (agId : String) :
    (envF.observacaoPara sens agId).2 = envF ∧
    ((envF.observacaoPara sens agId).2.observacaoPara sens agId).1 =
      (envF.observacaoPara sens agId).1 ∧
    (envL.observacaoPara sens agId).2 = envL ∧
    ((envL.observacaoPara sens agId).2.observacaoPara sens agId).1 =
      (envL.observacaoPara sens agId).1 :=
  ⟨rfl, rfl, rfl, rfl⟩

/-- C10: in the Foraging environment every action other than the four
movement actions (in particular `PICK`, `DROP` and `STAY`) returns reward
`0.0` with `terminated = False` and leaves the whole environment state
unchanged; pick-up and delivery can therefore only happen as the automatic
side effects of movement. -/
theorem nonmovement_actions_are_noops (env : ForagingEnv) (acao agId : String)
    (h : acao ∉ (["UP", "DOWN", "LEFT", "RIGHT"] : List String)) :
    env.agir acao agId = (0, false, env) := by
  unfold ForagingEnv.agir
  simp only [List.mem_cons, List.not_mem_nil, or_false, not_or] at h
  obtain ⟨h1, h2, h3, h4⟩ := h
  simp [h1, h2, h3, h4]

/-- Witness for C10 at the explicit action `PICK`. -/
theorem nonmovement_actions_are_noops_witness :
    "PICK" ∉ (["UP", "DOWN", "LEFT", "RIGHT"] : List String) ∧
    cEnvA.agir "PICK" "q1" = (0, false, cEnvA) :=
  ⟨by decide, nonmovement_actions_are_noops cEnvA "PICK" "q1" (by decide)⟩

/-- C2 counterexample: a test-mode Q-agent with an empty table calls the
ask-action interface once; the table contents change (a default-initialised
row is inserted), refuting "no call at its public interface ever changes
the contents of the Q-table". -/
theorem qtable_row_inserted_in_test_mode :
    cQT.modo = "test" ∧ cQT.qtable = [] ∧
    QAgent.age cQT cRngQ = .ok (QAgent.ageGo cQT cRngQ) ∧
    (QAgent.ageGo cQT cRngQ).2.qtable ≠ [] :=
  ⟨rfl, rfl, rfl, by decide⟩

/-- C2 amended: in test mode, `apply_reward` and episode reset never change
the Q-table, and ask-action never changes any existing row — it can only
insert a default-initialised row for a previously unseen state. -/
theorem qtable_frame_in_test_mode (ag : QAgent) (h : ag.modo = "test") :
    (∀ r, (QAgent.avaliacaoEstadoAtual ag r).qtable = ag.qtable) ∧
    (∀ ep, (QAgent.reset ag ep).qtable = ag.qtable) ∧
    (∀ rng s, (aget ag.qtable s).isSome →
       aget (QAgent.ageGo ag rng).2.qtable s = aget ag.qtable s) ∧
    (∀ rng s, aget ag.qtable s = none →
       aget (QAgent.ageGo ag rng).2.qtable s = none ∨
       aget (QAgent.ageGo ag rng).2.qtable s = some (inicializar ag.acoes s)) := by
  have hmodo : ag.modo ≠ "learn" := by rw [h]; decide
  refine ⟨?_, ?_, ?_, ?_⟩
  · intro r
    simp [QAgent.avaliacaoEstadoAtual, hmodo]
  · intro ep
    unfold QAgent.reset
    split_ifs <;> rfl
  · intro rng s hs
    unfold QAgent.ageGo
    dsimp only
    set estado := toState (ag.ultima_observacao.getD { pos := (0, 0) }) with hest
    by_cases hmem : (aget ag.qtable estado).isSome
    · simp [hmem]
    · have hne : estado ≠ s := by
        intro hcontra
        rw [hcontra] at hmem
        exact hmem hs
      simp only [hmem, Bool.false_eq_true, if_false]
      exact aget_aset_ne ag.qtable estado s _ hne
  · intro rng s hs
    unfold QAgent.ageGo
    dsimp only
    set estado := toState (ag.ultima_observacao.getD { pos := (0, 0) }) with hest
    by_cases hmem : (aget ag.qtable estado).isSome
    · left; simp [hmem, hs]
    · by_cases hse : estado = s
      · right
        simp only [hmem, Bool.false_eq_true, if_false]
        rw [← hse]
        exact aget_aset_self ag.qtable estado (inicializar ag.acoes estado)
      · left
        simp only [hmem, Bool.false_eq_true, if_false]
        rw [aget_aset_ne ag.qtable estado s _ hse]
        exact hs

/-- Witness for C2's amended theorem at the concrete test-mode agent. -/
theorem qtable_frame_in_test_mode_witness :
    cQT.modo = "test" ∧
    ((∀ r, (QAgent.avaliacaoEstadoAtual cQT r).qtable = cQT.qtable) ∧
     (∀ ep, (QAgent.reset cQT ep).qtable = cQT.qtable) ∧
     (∀ rng s, (aget cQT.qtable s).isSome →
        aget (QAgent.ageGo cQT rng).2.qtable s = aget cQT.qtable s) ∧
     (∀ rng s, aget cQT.qtable s = none →
        aget (QAgent.ageGo cQT rng).2.qtable s = none ∨
        aget (QAgent.ageGo cQT rng).2.qtable s = some (inicializar cQT.acoes s))) :=
  ⟨rfl, qtable_frame_in_test_mode cQT rfl⟩

/-- C6: at an episode boundary of a learning-mode genetic agent, the stored
best genome and fitness are updated exactly when the finished episode's
fitness strictly exceeds the stored best; in every other situation they are
unchanged, and `best_fitness` never decreases. -/
theorem ga_best_updated_only_on_strict_improvement
    (ag : GAAgent) (rng : GAAgent.GaResetRng) (ep : Int) :
    ((GAAgent.reset ag rng ep).best_fitness =
       if ag.modo = "learn" ∧ 0 < ag._current_steps ∧
          ag.best_fitness < (ag._episode_reward : WithBot ℚ)
       then (ag._episode_reward : WithBot ℚ) else ag.best_fitness) ∧
    ((GAAgent.reset ag rng ep).best_genome =
       if ag.modo = "learn" ∧ 0 < ag._current_steps ∧
          ag.best_fitness < (ag._episode_reward : WithBot ℚ)
       then ag.genome else ag.best_genome) ∧
    ag.best_fitness ≤ (GAAgent.reset ag rng ep).best_fitness := by
  unfold GAAgent.reset
  by_cases h1 : ag._current_steps > 0
  · by_cases h2 : ag.modo = "learn"
    · by_cases h3 : ag.best_fitness < (ag._episode_reward : WithBot ℚ)
      · have hb : ((ag._episode_reward : WithBot ℚ) > ag.best_fitness) = True := by
          simp [gt_iff_lt, h3]
        simp [h1, h2, h3, hb, le_of_lt h3]
      · have hb : ((ag._episode_reward : WithBot ℚ) > ag.best_fitness) = False := by
          simp [gt_iff_lt, h3]
        simp [h1, h2, h3, hb]
    · simp [h1, h2]
  · have h1' : ¬ (0 < ag._current_steps) := h1
    simp [h1, h1']

/-- C5 counterexample: the engine's step loop advances the environment step
counter by two, not one, in a single iteration (the source calls
`self.ambiente.atualizacao()` twice, before and after the learning phase). -/
theorem step_counter_advances_by_two :
    (engineRun cEnvF3 [] cRngStream).1.step ≠ cEnvF3.step + 1 := by decide

/-- C5 amended: each `atualizacao` call only increments the step counter
and changes nothing else, and one engine step-loop iteration invokes it
exactly twice, so the counter advances by exactly two per iteration. -/
theorem atualizacao_twice_per_iteration (env : ForagingEnv) (ags : List QAgent)
    (rng : Nat → StepRng) :
    (engineRun env ags rng).1.step = env.step + 2 ∧
    (∀ e : ForagingEnv, e.atualizacao = { e with step := e.step + 1 }) ∧
    (∀ e : FarolEnv, e.atualizacao = { e with step := e.step + 1 }) := by
  refine ⟨?_, fun _ => rfl, fun _ => rfl⟩
  show ((actPhase env (decidePhase (obsPhase env ags) rng 0)).1.atualizacao.atualizacao).step
      = env.step + 2
  simp [ForagingEnv.atualizacao, actPhase_fst_step]
  ring

/-- C8 counterexample: a genetic agent whose `ultima_observacao` is still
`None` does not raise on `age()`; it returns a uniformly random action
(here `UP`) and counts the step, refuting "every agent kind fails fast". -/
theorem ga_age_returns_action_without_observation :
    cGA.ultima_observacao = none ∧
    GAAgent.age cGA (fun q => q) cRngGA =
      .ok ("UP", { cGA with _current_steps := cGA._current_steps + 1 }) :=
  ⟨rfl, rfl⟩

/-- C8 amended: acting before any observation exists raises a descriptive
error for the scripted agent and the tabular Q-learner, while the genetic
agent instead silently returns a random member of its action list. -/
theorem age_without_observation_taxonomy
    (f : FixedAgent) (q : QAgent) (g : GAAgent) (expFn : ℚ → ℚ)
    (rq : StepRng) (rg : GAAgent.GaRng)
    (hf : f.ultima_observacao = none) (hq : q.ultima_observacao = none)
    (hg : g.ultima_observacao = none) (hl : g.lista_acoes ≠ []) :
    FixedAgent.age f = .error ("[" ++ f.id ++ "] age() chamado sem observacao") ∧
    QAgent.age q rq = .error ("[" ++ q.id ++ "] age() chamado sem observacao") ∧
    GAAgent.age g expFn rg =
      .ok (listChoice g.lista_acoes rg.pickNone,
           { g with _current_steps := g._current_steps + 1 }) ∧
    listChoice g.lista_acoes rg.pickNone ∈ g.lista_acoes := by
  refine ⟨?_, ?_, ?_, listChoice_mem _ _ hl⟩
  · simp [FixedAgent.age, hf]
  · simp [QAgent.age, hq]
  · simp [GAAgent.age, hg]

theorem reset_preserva_config (ag : QAgent) (ep : Int) :
    (QAgent.reset ag ep).modo = ag.modo ∧
    (QAgent.reset ag ep).epsilon_min = ag.epsilon_min ∧
    (QAgent.reset ag ep).epsilon_decay = ag.epsilon_decay ∧
    (QAgent.reset ag ep).alpha_min = ag.alpha_min ∧
    (QAgent.reset ag ep).alpha_decay = ag.alpha_decay := by
  unfold QAgent.reset
  split_ifs <;> exact ⟨rfl, rfl, rfl, rfl, rfl⟩

theorem reset_decay_step (ag : QAgent) (ep : Int) (hm : ag.modo = "learn")
    (he0 : 0 ≤ ag.epsilon_min) (he1 : ag.epsilon_min ≤ ag.epsilon)
    (hd1 : ag.epsilon_decay ≤ 1)
    (ha0 : 0 ≤ ag.alpha_min) (ha1 : ag.alpha_min ≤ ag.alpha)
    (hb1 : ag.alpha_decay ≤ 1) :
    (QAgent.reset ag ep).epsilon ≤ ag.epsilon ∧
    ag.epsilon_min ≤ (QAgent.reset ag ep).epsilon ∧
    (QAgent.reset ag ep).alpha ≤ ag.alpha ∧
    ag.alpha_min ≤ (QAgent.reset ag ep).alpha := by
  have he2 : (0 : ℚ) ≤ ag.epsilon := le_trans he0 he1
  have ha2 : (0 : ℚ) ≤ ag.alpha := le_trans ha0 ha1
  have heps1le : max ag.epsilon_min (ag.epsilon * ag.epsilon_decay) ≤ ag.epsilon :=
    max_le he1 (mul_le_of_le_one_right he2 hd1)
  have heps1ge : ag.epsilon_min ≤ max ag.epsilon_min (ag.epsilon * ag.epsilon_decay) :=
    le_max_left _ _
  have halp1le : max ag.alpha_min (ag.alpha * ag.alpha_decay) ≤ ag.alpha :=
    max_le ha1 (mul_le_of_le_one_right ha2 hb1)
  have halp1ge : ag.alpha_min ≤ max ag.alpha_min (ag.alpha * ag.alpha_decay) :=
    le_max_left _ _
  have heps1pos : (0 : ℚ) ≤ max ag.epsilon_min (ag.epsilon * ag.epsilon_decay) :=
    le_trans he0 heps1ge
  have halp1pos : (0 : ℚ) ≤ max ag.alpha_min (ag.alpha * ag.alpha_decay) :=
    le_trans ha0 halp1ge
  unfold QAgent.reset
  simp only [hm, if_pos, if_true, reduceIte]
  by_cases hep : ep > 100
  · simp only [hep, if_true, reduceIte]
    refine ⟨?_, le_max_left _ _, ?_, le_max_left _ _⟩
    · exact max_le he1 (le_trans
        (mul_le_of_le_one_right heps1pos (by norm_num)) heps1le)
    · exact max_le ha1 (le_trans
        (mul_le_of_le_one_right halp1pos (by norm_num)) halp1le)
  · simp only [hep, if_false, reduceIte]
    exact ⟨heps1le, heps1ge, halp1le, halp1ge⟩

/-- C7: for a learning-mode Q-agent whose ε and α respect their configured
floors and whose decay factors lie in `[0,1]` (as all constructed agents
do), every `reset(ep)` leaves ε and α no larger than before and no smaller
than their floors (also through the accelerated post-100 decay); iterating
resets over any episode sequence keeps them between the floors and the
initial values; and in test mode `reset` leaves them unchanged. -/
theorem q_decay_monotone_and_floored (ag : QAgent) (ep : Int)
    (he0 : 0 ≤ ag.epsilon_min) (he1 : ag.epsilon_min ≤ ag.epsilon)
    (hd1 : ag.epsilon_decay ≤ 1)
    (ha0 : 0 ≤ ag.alpha_min) (ha1 : ag.alpha_min ≤ ag.alpha)
    (hb1 : ag.alpha_decay ≤ 1) :
    (ag.modo = "learn" →
      (QAgent.reset ag ep).epsilon ≤ ag.epsilon ∧
      ag.epsilon_min ≤ (QAgent.reset ag ep).epsilon ∧
      (QAgent.reset ag ep).alpha ≤ ag.alpha ∧
      ag.alpha_min ≤ (QAgent.reset ag ep).alpha) ∧
    (ag.modo = "test" →
      (QAgent.reset ag ep).epsilon = ag.epsilon ∧
      (QAgent.reset ag ep).alpha = ag.alpha) ∧
    (ag.modo = "learn" → ∀ l : List Int,
      (l.foldl QAgent.reset ag).epsilon ≤ ag.epsilon ∧
      ag.epsilon_min ≤ (l.foldl QAgent.reset ag).epsilon ∧
      (l.foldl QAgent.reset ag).alpha ≤ ag.alpha ∧
      ag.alpha_min ≤ (l.foldl QAgent.reset ag).alpha) := by
  refine ⟨fun hm => reset_decay_step ag ep hm he0 he1 hd1 ha0 ha1 hb1, ?_, ?_⟩
  · intro hm
    have hmodo : ag.modo ≠ "learn" := by rw [hm]; decide
    unfold QAgent.reset
    simp only [hmodo, if_false, reduceIte]
    constructor <;> (split_ifs <;> rfl)
  · intro hm l
    induction l generalizing ag with
    | nil => exact ⟨le_refl _, he1, le_refl _, ha1⟩
    | cons e t ih =>
      have hstep := reset_decay_step ag e hm he0 he1 hd1 ha0 ha1 hb1
      have hpres := reset_preserva_config ag e
      have ihres := ih (QAgent.reset ag e)
        (hpres.2.1 ▸ he0) (hpres.2.1 ▸ hstep.2.1) (hpres.2.2.1 ▸ hd1)
        (hpres.2.2.2.1 ▸ ha0) (hpres.2.2.2.1 ▸ hstep.2.2.2) (hpres.2.2.2.2 ▸ hb1)
        (hpres.1 ▸ hm)
      simp only [List.foldl_cons]
      refine ⟨le_trans ihres.1 hstep.1, ?_, le_trans ihres.2.2.1 hstep.2.2.1, ?_⟩
      · exact le_trans (le_of_eq (hpres.2.1).symm) ihres.2.1
      · exact le_trans (le_of_eq (hpres.2.2.2.1).symm) ihres.2.2.2

/-- Witness for C7 at the freshly constructed learning agent, episode 150
(exercising the accelerated decay branch). -/
theorem q_decay_monotone_and_floored_witness :
    (0 ≤ cQL.epsilon_min ∧ cQL.epsilon_min ≤ cQL.epsilon ∧
     cQL.epsilon_decay ≤ 1 ∧ 0 ≤ cQL.alpha_min ∧
     cQL.alpha_min ≤ cQL.alpha ∧ cQL.alpha_decay ≤ 1) ∧
    ((cQL.modo = "learn" →
      (QAgent.reset cQL 150).epsilon ≤ cQL.epsilon ∧
      cQL.epsilon_min ≤ (QAgent.reset cQL 150).epsilon ∧
      (QAgent.reset cQL 150).alpha ≤ cQL.alpha ∧
      cQL.alpha_min ≤ (QAgent.reset cQL 150).alpha) ∧
    (cQL.modo = "test" →
      (QAgent.reset cQL 150).epsilon = cQL.epsilon ∧
      (QAgent.reset cQL 150).alpha = cQL.alpha) ∧
    (cQL.modo = "learn" → ∀ l : List Int,
      (l.foldl QAgent.reset cQL).epsilon ≤ cQL.epsilon ∧
      cQL.epsilon_min ≤ (l.foldl QAgent.reset cQL).epsilon ∧
      (l.foldl QAgent.reset cQL).alpha ≤ cQL.alpha ∧
      cQL.alpha_min ≤ (l.foldl QAgent.reset cQL).alpha)) :=
  ⟨by refine ⟨?_, ?_, ?_, ?_, ?_, ?_⟩ <;> norm_num [cQL, dfltQAgent],
   q_decay_monotone_and_floored cQL 150
     (by norm_num [cQL, dfltQAgent]) (by norm_num [cQL, dfltQAgent])
     (by norm_num [cQL, dfltQAgent]) (by norm_num [cQL, dfltQAgent])
     (by norm_num [cQL, dfltQAgent]) (by norm_num [cQL, dfltQAgent])⟩

/-- Witness for C8's amended theorem at concrete agents of all three kinds. -/
theorem age_without_observation_taxonomy_witness :
    cFix.ultima_observacao = none ∧ cQL.ultima_observacao = none ∧
    cGA.ultima_observacao = none ∧ cGA.lista_acoes ≠ [] ∧
    (FixedAgent.age cFix = .error ("[" ++ cFix.id ++ "] age() chamado sem observacao") ∧
     QAgent.age cQL cRngQ = .error ("[" ++ cQL.id ++ "] age() chamado sem observacao") ∧
     GAAgent.age cGA (fun q => q) cRngGA =
       .ok (listChoice cGA.lista_acoes cRngGA.pickNone,
            { cGA with _current_steps := cGA._current_steps + 1 }) ∧
     listChoice cGA.lista_acoes cRngGA.pickNone ∈ cGA.lista_acoes) :=
  ⟨rfl, rfl, rfl, by decide,
   age_without_observation_taxonomy cFix cQL cGA (fun q => q) cRngQ cRngGA
     rfl rfl rfl (by decide)⟩

/-- C4 counterexample: with the single resource lying on the nest cell, a
movement action lands a non-carrying agent on that resource cell, yet
nothing is picked up: the cell classifies as nest first, the resource stays
and the carrying flag remains `0`, refuting "whenever a movement action
lands an agent whose carrying flag is 0 on a cell containing a resource,
the environment removes that resource … and sets the carrying flag to 1". -/
theorem pick_skipped_on_nest_cell :
    ForagingEnv.destino cEnvNestRes
        (dget cEnvNestRes.agent_pos "a1" cEnvNestRes.ninho) "LEFT" = (0, 0) ∧
    (0, 0) ∈ cEnvNestRes.resources ∧
    dget cEnvNestRes.carrying "a1" 0 = 0 ∧
    (0, 0) ∉ cEnvNestRes.walls ∧
    (cEnvNestRes.agir "LEFT" "a1").2.2.resources = [(0, 0)] ∧
    dget (cEnvNestRes.agir "LEFT" "a1").2.2.carrying "a1" 0 = 0 :=
  ⟨rfl, by decide, rfl, by decide, rfl, rfl⟩

/-- C4 amended: whenever a movement action lands a non-carrying agent on a
NON-NEST cell containing a resource (the nest cell shadows any resource on
it), the resource is removed, the carrying flag becomes 1 and the returned
reward is the movement cost plus the positive pick-up bonus `+2` plus a
shaping term in `[-0.02, 0.05]`; whenever a movement action lands a
carrying agent on the nest, carrying becomes 0, `total_delivered` grows by
exactly one and the reward contains the delivery bonus `+5`, strictly
larger than the pick-up bonus; and `is_episode_finished` holds exactly when
the resource set is empty. -/
theorem foraging_pick_drop_and_termination (env : ForagingEnv)
    (acao agId : String) (d : Pos)
    (hmov : acao ∈ (["UP", "DOWN", "LEFT", "RIGHT"] : List String))
    (hd : d = env.destino (dget env.agent_pos agId env.ninho) acao) :
    ((d ∉ env.walls → d ≠ env.ninho → d ∈ env.resources →
        dget env.carrying agId 0 = 0 →
        (env.agir acao agId).2.2.resources = env.resources.filter (· ≠ d) ∧
        dget (env.agir acao agId).2.2.carrying agId 0 = 1 ∧
        (env.agir acao agId).2.2.total_delivered = env.total_delivered ∧
        (env.agir acao agId).2.1 = false ∧
        (∃ s : ℚ, (env.agir acao agId).1 = -1/100 + 2 + s ∧
          -1/50 ≤ s ∧ s ≤ 1/20) ∧ (0 : ℚ) < 2) ∧
     (d ∉ env.walls → d = env.ninho → dget env.carrying agId 0 = 1 →
        dget (env.agir acao agId).2.2.carrying agId 0 = 0 ∧
        (env.agir acao agId).2.2.total_delivered = env.total_delivered + 1 ∧
        (env.agir acao agId).2.2.resources = env.resources ∧
        (env.agir acao agId).2.1 = false ∧
        (∃ s : ℚ, (env.agir acao agId).1 = -1/100 + 5 + s ∧
          -1/50 ≤ s ∧ s ≤ 1/20) ∧ (2 : ℚ) < 5)) ∧
    (env.is_episode_done = true ↔ env.resources = []) := by
  have hor : acao = "UP" ∨ acao = "DOWN" ∨ acao = "LEFT" ∨ acao = "RIGHT" := by
    simpa using hmov
  refine ⟨⟨?_, ?_⟩, ?_⟩
  · intro hw hnin hres hcar
    have htipo : ForagingEnv.tipoCelula env d = .recurso := by
      unfold ForagingEnv.tipoCelula
      rw [if_neg hnin, if_neg hw, if_pos hres]
    have htipo1 : ForagingEnv.tipoCelula
        { env with agent_pos := dset env.agent_pos agId d } d = .recurso := htipo
    have hcalc : dget (dset env.carrying agId 1) agId 0 = 1 :=
      dget_dset_self _ _ _ _
    unfold ForagingEnv.agir
    rw [if_pos hor]
    simp only [← hd]
    rw [if_neg hw]
    simp only [htipo1, hcar, hcalc]
    simp only [and_self, if_true, reduceIte, List.cons_ne_nil, ne_eq,
      not_false_eq_true]
    simp only [hcalc, and_true, true_and, and_self, if_true, reduceIte,
      List.cons_ne_nil, not_false_eq_true]
    refine ⟨?_, by norm_num⟩
    exact ⟨_, rfl, (shapingFor_bounds _ _).1, (shapingFor_bounds _ _).2⟩
  · intro hw hnin hcar
    have htipo : ForagingEnv.tipoCelula env d = .ninho := by
      unfold ForagingEnv.tipoCelula
      rw [if_pos hnin]
    have htipo1 : ForagingEnv.tipoCelula
        { env with agent_pos := dset env.agent_pos agId d } d = .ninho := htipo
    unfold ForagingEnv.agir
    rw [if_pos hor]
    simp only [← hd]
    rw [if_neg hw]
    simp only [htipo1, hcar]
    simp only [reduceCtorEq, false_and, and_true, true_and, if_true, if_false,
      reduceIte, one_ne_zero, and_self]
    refine ⟨dget_dset_self _ _ _ _, ?_, by norm_num⟩
    exact ⟨_, rfl, (shapingFor_bounds _ _).1, (shapingFor_bounds _ _).2⟩
  · unfold ForagingEnv.is_episode_done
    constructor
    · intro h
      exact List.length_eq_zero.mp (by simpa using h)
    · intro h
      simp [h]

/-- Witness for C4 at a concrete 3×3 world: agent `q1` moves `RIGHT` onto
the resource at `(2,2)`. -/
theorem foraging_pick_drop_and_termination_witness :
    "RIGHT" ∈ (["UP", "DOWN", "LEFT", "RIGHT"] : List String) ∧
    ((2 : Int), (2 : Int)) =
      cEnvA.destino (dget cEnvA.agent_pos "q1" cEnvA.ninho) "RIGHT" ∧
    ((((2 : Int), (2 : Int)) ∉ cEnvA.walls → ((2 : Int), (2 : Int)) ≠ cEnvA.ninho →
        ((2 : Int), (2 : Int)) ∈ cEnvA.resources → dget cEnvA.carrying "q1" 0 = 0 →
        (cEnvA.agir "RIGHT" "q1").2.2.resources =
          cEnvA.resources.filter (· ≠ ((2 : Int), (2 : Int))) ∧
        dget (cEnvA.agir "RIGHT" "q1").2.2.carrying "q1" 0 = 1 ∧
        (cEnvA.agir "RIGHT" "q1").2.2.total_delivered = cEnvA.total_delivered ∧
        (cEnvA.agir "RIGHT" "q1").2.1 = false ∧
        (∃ s : ℚ, (cEnvA.agir "RIGHT" "q1").1 = -1/100 + 2 + s ∧
          -1/50 ≤ s ∧ s ≤ 1/20) ∧ (0 : ℚ) < 2) ∧
     (((2 : Int), (2 : Int)) ∉ cEnvA.walls → ((2 : Int), (2 : Int)) = cEnvA.ninho →
        dget cEnvA.carrying "q1" 0 = 1 →
        dget (cEnvA.agir "RIGHT" "q1").2.2.carrying "q1" 0 = 0 ∧
        (cEnvA.agir "RIGHT" "q1").2.2.total_delivered = cEnvA.total_delivered + 1 ∧
        (cEnvA.agir "RIGHT" "q1").2.2.resources = cEnvA.resources ∧
        (cEnvA.agir "RIGHT" "q1").2.1 = false ∧
        (∃ s : ℚ, (cEnvA.agir "RIGHT" "q1").1 = -1/100 + 5 + s ∧
          -1/50 ≤ s ∧ s ≤ 1/20) ∧ (2 : ℚ) < 5)) ∧
    (cEnvA.is_episode_done = true ↔ cEnvA.resources = []) :=
  ⟨by decide, by decide,
   foraging_pick_drop_and_termination cEnvA "RIGHT" "q1" ((2 : Int), (2 : Int))
     (by decide) (by decide)⟩

theorem popLast_spec {α : Type} (l l' : List α) (x : α)
    (h : FarolEnv.popLast l = some (x, l')) : x ∈ l ∧ ∀ y ∈ l', y ∈ l := by
  unfold FarolEnv.popLast at h
  cases hrev : l.reverse with
  | nil => rw [hrev] at h; simp at h
  | cons a rest =>
    rw [hrev] at h
    simp only [Option.some.injEq, Prod.mk.injEq] at h
    obtain ⟨hx, hl'⟩ := h
    constructor
    · have ha : a ∈ l.reverse := by rw [hrev]; exact List.mem_cons_self a rest
      rw [← hx]
      simpa using ha
    · intro y hy
      rw [← hl'] at hy
      have hyr : y ∈ rest := by simpa using hy
      have : y ∈ l.reverse := by rw [hrev]; exact List.mem_cons_of_mem _ hyr
      simpa using this

theorem posicoesDisponiveis_valid (env : FarolEnv) (p : Pos)
    (h : p ∈ FarolEnv.posicoesDisponiveis env) : FarolEnv.spawnValido env p := by
  unfold FarolEnv.posicoesDisponiveis at h
  rw [List.mem_filter] at h
  obtain ⟨hmem, hcond⟩ := h
  obtain ⟨x, hx, hp⟩ := List.mem_flatMap.mp hmem
  obtain ⟨y, hy, hpeq⟩ := List.mem_map.mp hp
  have hx' := List.mem_range.mp hx
  have hy' := List.mem_range.mp hy
  simp only [decide_eq_true_eq] at hcond
  subst hpeq
  refine ⟨by simp [Int.ofNat_nonneg], by simp; omega, by simp [Int.ofNat_nonneg],
    by simp; omega, hcond.1, hcond.2⟩

theorem explicit_fold_valid (env : FarolEnv) (spawns : List (String × Pos)) :
    ∀ (ids : List String) (acc : List (String × Pos)),
      (∀ q ∈ acc, FarolEnv.spawnValido env q.2) →
      ∀ q ∈ ids.foldl (fun acc aid =>
          match spawns.find? (fun q => q.1 = aid) with
          | some q => if FarolEnv.spawnValido env q.2 then acc ++ [(aid, q.2)] else acc
          | none => acc) acc, FarolEnv.spawnValido env q.2 := by
  intro ids
  induction ids with
  | nil => intro acc hacc q hq; exact hacc q hq
  | cons aid rest ih =>
    intro acc hacc q hq
    rw [List.foldl_cons] at hq
    refine ih _ ?_ q hq
    cases hfind : spawns.find? (fun q => q.1 = aid) with
    | none => simpa [hfind] using hacc
    | some q0 =>
      by_cases hval : FarolEnv.spawnValido env q0.2
      · simp only [hfind, hval, if_pos, if_true, reduceIte]
        intro q1 hq1
        rcases List.mem_append.mp hq1 with hq1 | hq1
        · exact hacc q1 hq1
        · have : q1 = (aid, q0.2) := by simpa using hq1
          rw [this]
          exact hval
      · simpa [hfind, hval] using hacc

theorem colocaRestantes_valid (env : FarolEnv) :
    ∀ (ids : List String) (assigned : List (String × Pos)) (livres : List Pos)
      (out : List (String × Pos)),
      (∀ q ∈ assigned, FarolEnv.spawnValido env q.2) →
      (∀ p ∈ livres, FarolEnv.spawnValido env p) →
      FarolEnv.colocaRestantes env ids assigned livres = .ok out →
      ∀ q ∈ out, FarolEnv.spawnValido env q.2 := by
  intro ids
  induction ids with
  | nil =>
    intro assigned livres out hass _ hok
    unfold FarolEnv.colocaRestantes at hok
    simp only [Except.ok.injEq] at hok
    rw [← hok]
    exact hass
  | cons aid rest ih =>
    intro assigned livres out hass hliv hok
    unfold FarolEnv.colocaRestantes at hok
    by_cases hfound : (assigned.find? (fun q => q.1 = aid)).isSome
    · rw [if_pos hfound] at hok
      exact ih assigned livres out hass hliv hok
    · rw [if_neg hfound] at hok
      cases hpop : FarolEnv.popLast livres with
      | none => rw [hpop] at hok; simp at hok
      | some pl =>
        obtain ⟨p, livres'⟩ := pl
        rw [hpop] at hok
        have hps := popLast_spec livres livres' p hpop
        refine ih (assigned ++ [(aid, p)]) livres' out ?_ ?_ hok
        · intro q hq
          rcases List.mem_append.mp hq with hq | hq
          · exact hass q hq
          · have : q = (aid, p) := by simpa using hq
            rw [this]
            exact hliv p hps.1
        · intro y hy
          exact hliv y (hps.2 y hy)

theorem farol_reset_valido (env : FarolEnv) (shuffle : List Pos → List Pos)
    (spawns : List (String × Pos)) (env' : FarolEnv)
    (hperm : ∀ l, List.Perm (shuffle l) l)
    (hok : env.reset shuffle spawns = .ok env') :
    ∀ q ∈ env'.agent_pos, FarolEnv.spawnValido env q.2 := by
  unfold FarolEnv.reset at hok
  dsimp only at hok
  set env0 : FarolEnv := { env with step := 0, done_agents := [] } with henv0
  have hval0 : ∀ p : Pos, FarolEnv.spawnValido env0 p → FarolEnv.spawnValido env p :=
    fun p hp => hp
  set shuffled := shuffle (FarolEnv.posicoesDisponiveis env0) with hshuf
  set explicit := env0.agent_ids.foldl (fun acc aid =>
    match spawns.find? (fun q => q.1 = aid) with
    | some q => if FarolEnv.spawnValido env0 q.2 then acc ++ [(aid, q.2)] else acc
    | none => acc) [] with hexp
  set livres := shuffled.filter (fun p => p ∉ explicit.map (·.2)) with hliv
  have hexp_valid : ∀ q ∈ explicit, FarolEnv.spawnValido env0 q.2 := by
    rw [hexp]
    exact explicit_fold_valid env0 spawns env0.agent_ids [] (by simp)
  have hliv_valid : ∀ p ∈ livres, FarolEnv.spawnValido env0 p := by
    intro p hp
    rw [hliv] at hp
    have hp1 : p ∈ shuffled := List.mem_of_mem_filter hp
    rw [hshuf] at hp1
    have hp2 : p ∈ FarolEnv.posicoesDisponiveis env0 :=
      (hperm (FarolEnv.posicoesDisponiveis env0)).mem_iff.mp hp1
    exact posicoesDisponiveis_valid env0 p hp2
  cases hcol : FarolEnv.colocaRestantes env0 env0.agent_ids explicit livres with
  | error e => rw [hcol] at hok; simp at hok
  | ok assigned =>
    rw [hcol] at hok
    simp only [Except.ok.injEq] at hok
    intro q hq
    have hq' : q ∈ assigned := by
      rw [← hok] at hq
      simpa using hq
    exact hval0 q.2
      (colocaRestantes_valid env0 env0.agent_ids explicit livres assigned
        hexp_valid hliv_valid hcol q hq')

theorem fold_resetStep_ninho (spawns : List (String × Pos)) :
    ∀ (ids : List String) (e : ForagingEnv),
      (ids.foldl (ForagingEnv.resetStep spawns) e).ninho = e.ninho := by
  intro ids
  induction ids with
  | nil => intro e; rfl
  | cons aid rest ih =>
    intro e
    rw [List.foldl_cons, ih]
    rfl

theorem fold_resetStep_other (spawns : List (String × Pos)) :
    ∀ (ids : List String) (e : ForagingEnv) (aid : String) (d : Pos),
      aid ∉ ids →
      dget (ids.foldl (ForagingEnv.resetStep spawns) e).agent_pos aid d =
        dget e.agent_pos aid d := by
  intro ids
  induction ids with
  | nil => intro e aid d _; rfl
  | cons a rest ih =>
    intro e aid d hnot
    have hne : a ≠ aid := fun hcontra => hnot (by rw [hcontra]; exact List.mem_cons_self _ _)
    have hnr : aid ∉ rest := fun hcontra => hnot (List.mem_cons_of_mem _ hcontra)
    rw [List.foldl_cons, ih _ _ _ hnr]
    exact dget_dset_ne _ _ _ _ _ hne

theorem fold_resetStep_nest (spawns : List (String × Pos)) :
    ∀ (ids : List String) (e : ForagingEnv) (aid : String) (d : Pos),
      aid ∈ ids → spawns.find? (fun q => q.1 = aid) = none →
      dget (ids.foldl (ForagingEnv.resetStep spawns) e).agent_pos aid d =
        e.ninho := by
  intro ids
  induction ids with
  | nil => intro e aid d hmem _; simp at hmem
  | cons a rest ih =>
    intro e aid d hmem hfind
    rw [List.foldl_cons]
    by_cases hmr : aid ∈ rest
    · rw [ih _ _ _ hmr hfind]
      rfl
    · have ha : a = aid := by
        rcases List.mem_cons.mp hmem with h | h
        · exact h.symm
        · exact absurd h hmr
      subst ha
      rw [fold_resetStep_other spawns rest _ _ _ hmr]
      unfold ForagingEnv.resetStep
      dsimp only
      rw [hfind]
      exact dget_dset_self _ _ _ _

theorem foraging_reset_nest_default (env : ForagingEnv)
    (spawns : List (String × Pos)) (aid : String)
    (hmem : aid ∈ env.agent_ids)
    (hfind : spawns.find? (fun q => q.1 = aid) = none) :
    dget (env.reset spawns).agent_pos aid (0, 0) = env.ninho := by
  unfold ForagingEnv.reset
  dsimp only
  exact fold_resetStep_nest spawns env.agent_ids _ aid (0, 0) hmem hfind

theorem destino_dentro (env : ForagingEnv) (p : Pos) (acao : String)
    (h : env.dentro p) : env.dentro (env.destino p acao) := by
  unfold ForagingEnv.destino ForagingEnv.dentro at *
  obtain ⟨h1, h2, h3, h4⟩ := h
  split_ifs with c1 c2 c3 c4
  · obtain ⟨-, hc⟩ := c1
    exact ⟨h1, h2, by omega, by omega⟩
  · obtain ⟨-, hc⟩ := c2
    exact ⟨h1, h2, by omega, by omega⟩
  · obtain ⟨-, hc⟩ := c3
    exact ⟨by omega, by omega, h3, h4⟩
  · obtain ⟨-, hc⟩ := c4
    exact ⟨by omega, by omega, h3, h4⟩
  · exact ⟨h1, h2, h3, h4⟩

theorem foraging_agir_preserva (env : ForagingEnv) (acao agId : String)
    (hin : env.dentro (dget env.agent_pos agId env.ninho))
    (hw : dget env.agent_pos agId env.ninho ∉ env.walls) :
    (env.agir acao agId).2.2.dentro
      (dget (env.agir acao agId).2.2.agent_pos agId (env.agir acao agId).2.2.ninho) ∧
    dget (env.agir acao agId).2.2.agent_pos agId (env.agir acao agId).2.2.ninho ∉
      (env.agir acao agId).2.2.walls := by
  unfold ForagingEnv.agir
  dsimp only
  split_ifs with hmov hwall hpick hdrop <;>
    first
      | exact ⟨hin, hw⟩
      | (rw [dget_dset_self]
         exact ⟨destino_dentro env _ acao hin, hwall⟩)

theorem farol_destino_dentro (env : FarolEnv) (p d : Pos) (acao : String)
    (h : env.dentro p) (hd : env.destino p acao = some d) : env.dentro d := by
  unfold FarolEnv.destino at hd
  unfold FarolEnv.dentro at *
  obtain ⟨h1, h2, h3, h4⟩ := h
  split_ifs at hd with c1 c2 c3 c4 <;>
    simp only [Option.some.injEq, reduceCtorEq] at hd
  · obtain ⟨-, hc⟩ := c1
    rw [← hd]
    exact ⟨h1, h2, by omega, by omega⟩
  · obtain ⟨-, hc⟩ := c2
    rw [← hd]
    exact ⟨h1, h2, by omega, by omega⟩
  · obtain ⟨-, hc⟩ := c3
    rw [← hd]
    exact ⟨by omega, by omega, h3, h4⟩
  · obtain ⟨-, hc⟩ := c4
    rw [← hd]
    exact ⟨by omega, by omega, h3, h4⟩

theorem farol_agir_preserva (env : FarolEnv) (acao agId : String) (agSteps : Int)
    (hin : env.dentro (dget env.agent_pos agId (0, 0)))
    (hw : dget env.agent_pos agId (0, 0) ∉ env.walls) :
    (env.agir acao agId agSteps).2.2.dentro
      (dget (env.agir acao agId agSteps).2.2.agent_pos agId (0, 0)) ∧
    dget (env.agir acao agId agSteps).2.2.agent_pos agId (0, 0) ∉
      (env.agir acao agId agSteps).2.2.walls := by
  unfold FarolEnv.agir
  dsimp only
  split_ifs with hdone
  · exact ⟨hin, hw⟩
  · cases hdest : FarolEnv.destino env (dget env.agent_pos agId (0, 0)) acao with
    | none =>
      exact ⟨hin, hw⟩
    | some novo =>
      dsimp only
      split_ifs with hwall hfar hlt
      · rw [dget_dset_self]
        exact ⟨hin, hw⟩
      · rw [dget_dset_self]
        exact ⟨farol_destino_dentro env _ novo acao hin hdest, hwall⟩
      · rw [dget_dset_self]
        exact ⟨farol_destino_dentro env _ novo acao hin hdest, hwall⟩
      · rw [dget_dset_self]
        exact ⟨farol_destino_dentro env _ novo acao hin hdest, hwall⟩

/-- C3 counterexample: a Foraging reset with no explicit spawn places the
registered agent exactly on the nest, a fixed feature cell, refuting
"reset … does not coincide with a fixed feature (… the nest in the
Foraging environment)". -/
theorem foraging_reset_places_agent_on_nest :
    (cEnvF3.reset []).agent_pos = [("a1", (1, 1))] ∧ cEnvF3.ninho = (1, 1) :=
  ⟨rfl, rfl⟩

/-- C3 amended: the Farol reset guarantees every placed agent is in bounds,
off walls and off the beacon (given the shuffle oracle permutes); the
Foraging reset does NOT validate — an agent without an explicit spawn is
placed exactly on the nest; and in both environments every step keeps the
acting agent's cell in bounds and off walls. -/
theorem reset_spawn_and_step_invariants
    (envL : FarolEnv) (shuffle : List Pos → List Pos)
    (spawnsL : List (String × Pos)) (envL' : FarolEnv)
    (envF : ForagingEnv) (spawnsF : List (String × Pos)) (aidF : String)
    (envF2 : ForagingEnv) (acaoF agIdF : String)
    (envL2 : FarolEnv) (acaoL agIdL : String) (agSteps : Int)
    (hperm : ∀ l, List.Perm (shuffle l) l)
    (hok : envL.reset shuffle spawnsL = .ok envL')
    (hmemF : aidF ∈ envF.agent_ids)
    (hnotF : spawnsF.find? (fun q => q.1 = aidF) = none)
    (hinF : envF2.dentro (dget envF2.agent_pos agIdF envF2.ninho))
    (hwF : dget envF2.agent_pos agIdF envF2.ninho ∉ envF2.walls)
    (hinL : envL2.dentro (dget envL2.agent_pos agIdL (0, 0)))
    (hwL : dget envL2.agent_pos agIdL (0, 0) ∉ envL2.walls) :
    (∀ q ∈ envL'.agent_pos, FarolEnv.spawnValido envL q.2) ∧
    dget (envF.reset spawnsF).agent_pos aidF (0, 0) = envF.ninho ∧
    ((envF2.agir acaoF agIdF).2.2.dentro
       (dget (envF2.agir acaoF agIdF).2.2.agent_pos agIdF
         (envF2.agir acaoF agIdF).2.2.ninho) ∧
     dget (envF2.agir acaoF agIdF).2.2.agent_pos agIdF
       (envF2.agir acaoF agIdF).2.2.ninho ∉ (envF2.agir acaoF agIdF).2.2.walls) ∧
    ((envL2.agir acaoL agIdL agSteps).2.2.dentro
       (dget (envL2.agir acaoL agIdL agSteps).2.2.agent_pos agIdL (0, 0)) ∧
     dget (envL2.agir acaoL agIdL agSteps).2.2.agent_pos agIdL (0, 0) ∉
       (envL2.agir acaoL agIdL agSteps).2.2.walls) :=
  ⟨farol_reset_valido envL shuffle spawnsL envL' hperm hok,
   foraging_reset_nest_default envF spawnsF aidF hmemF hnotF,
   foraging_agir_preserva envF2 acaoF agIdF hinF hwF,
   farol_agir_preserva envL2 acaoL agIdL agSteps hinL hwL⟩

/-- Witness for C3's amended theorem at concrete environments: a 2×2 Farol
world reset with the identity shuffle, the nest-default Foraging reset, and
one movement step in each environment. -/
theorem reset_spawn_and_step_invariants_witness :
    ((∀ l : List Pos, List.Perm (id l) l) ∧
     cEnvL.reset id [] = .ok cEnvL' ∧
     "a1" ∈ cEnvF3.agent_ids ∧
     ([] : List (String × Pos)).find? (fun q => q.1 = "a1") = none ∧
     cEnvA.dentro (dget cEnvA.agent_pos "q1" cEnvA.ninho) ∧
     dget cEnvA.agent_pos "q1" cEnvA.ninho ∉ cEnvA.walls ∧
     cEnvL'.dentro (dget cEnvL'.agent_pos "a1" (0, 0)) ∧
     dget cEnvL'.agent_pos "a1" (0, 0) ∉ cEnvL'.walls) ∧
    ((∀ q ∈ cEnvL'.agent_pos, FarolEnv.spawnValido cEnvL q.2) ∧
     dget (cEnvF3.reset []).agent_pos "a1" (0, 0) = cEnvF3.ninho ∧
     ((cEnvA.agir "RIGHT" "q1").2.2.dentro
        (dget (cEnvA.agir "RIGHT" "q1").2.2.agent_pos "q1"
          (cEnvA.agir "RIGHT" "q1").2.2.ninho) ∧
      dget (cEnvA.agir "RIGHT" "q1").2.2.agent_pos "q1"
        (cEnvA.agir "RIGHT" "q1").2.2.ninho ∉ (cEnvA.agir "RIGHT" "q1").2.2.walls) ∧
     ((cEnvL'.agir "DOWN" "a1" 0).2.2.dentro
        (dget (cEnvL'.agir "DOWN" "a1" 0).2.2.agent_pos "a1" (0, 0)) ∧
      dget (cEnvL'.agir "DOWN" "a1" 0).2.2.agent_pos "a1" (0, 0) ∉
        (cEnvL'.agir "DOWN" "a1" 0).2.2.walls)) :=
  ⟨⟨fun l => List.Perm.refl l, by rfl, by decide, by rfl, by decide,
    by decide, by decide, by decide⟩,
   reset_spawn_and_step_invariants cEnvL id [] cEnvL' cEnvF3 [] "a1"
     cEnvA "RIGHT" "q1" cEnvL' "DOWN" "a1" 0
     (fun l => List.Perm.refl l) (by rfl) (by decide) (by rfl)
     (by decide) (by decide) (by decide) (by decide)⟩

theorem age_isSome_ok (ag : QAgent) (r : StepRng)
    (h : ag.ultima_observacao.isSome) :
    QAgent.age ag r = .ok (QAgent.ageGo ag r) := by
  unfold QAgent.age
  cases hobs : ag.ultima_observacao with
  | none => rw [hobs] at h; simp at h
  | some o => rfl

theorem decidePhaseM_ok : ∀ (l : List QAgent) (rng : Nat → StepRng) (i : Nat),
    (∀ ag ∈ l, ag.ultima_observacao.isSome) →
    decidePhaseM l rng i = .ok (decidePhase l rng i) := by
  intro l
  induction l with
  | nil => intro rng i _; rfl
  | cons ag rest ih =>
    intro rng i h
    unfold decidePhaseM decidePhase
    rw [age_isSome_ok ag (rng i) (h ag (List.mem_cons_self _ _))]
    rw [ih rng (i + 1) (fun a ha => h a (List.mem_cons_of_mem _ ha))]

theorem obsPhase_isSome (env : ForagingEnv) (ags : List QAgent) :
    ∀ ag ∈ obsPhase env ags, ag.ultima_observacao.isSome := by
  intro ag hag
  unfold obsPhase at hag
  obtain ⟨a, -, rfl⟩ := List.mem_map.mp hag
  rfl

theorem engineStep_eq_run (env : ForagingEnv) (ags : List QAgent)
    (rng : Nat → StepRng) :
    engineStep env ags rng = .ok (engineRun env ags rng) := by
  unfold engineStep engineRun
  dsimp only
  rw [decidePhaseM_ok _ rng 0 (obsPhase_isSome env ags)]

/-- C1: in each engine step-loop iteration, every agent's learning hook is
invoked on the agent carrying a fresh observation of the environment after
all agents' actions of the step were applied (and before only the step
counter is bumped), so the Q-update's next state `s'` is abstracted from
the post-transition state; and inside the loop `age()` never hits its
missing-observation error. -/
theorem engine_fresh_observation_before_learning (env : ForagingEnv)
    (ags : List QAgent) (rng : Nat → StepRng) (i : Nat) (h : i < ags.length) :
    engineStep env ags rng = .ok (engineRun env ags rng) ∧
    C1Prop env ags rng i := by
  refine ⟨engineStep_eq_run env ags rng, ?_⟩
  unfold C1Prop
  dsimp only
  have hlenp : (decidePhase (obsPhase env ags) rng 0).length = ags.length := by
    rw [decidePhase_length]
    unfold obsPhase
    exact List.length_map _ _
  have hlenr : (actPhase env (decidePhase (obsPhase env ags) rng 0)).2.length
      = ags.length := by
    rw [actPhase_snd_length, hlenp]
  have hlenm : (learnObsPhase
      (actPhase env (decidePhase (obsPhase env ags) rng 0)).1.atualizacao
      (decidePhase (obsPhase env ags) rng 0)).length = ags.length := by
    unfold learnObsPhase
    rw [List.length_map, hlenp]
  have hmain : (engineRun env ags rng).2.1.getD i dfltQAgent =
      QAgent.avaliacaoEstadoAtual
        (((decidePhase (obsPhase env ags) rng 0).getD i ("", dfltQAgent)).2.observacao
          (fObs (actPhase env (decidePhase (obsPhase env ags) rng 0)).1
            ((decidePhase (obsPhase env ags) rng 0).getD i ("", dfltQAgent)).2))
        ((actPhase env (decidePhase (obsPhase env ags) rng 0)).2.getD i 0) := by
    show (learnPhase (learnObsPhase
        (actPhase env (decidePhase (obsPhase env ags) rng 0)).1.atualizacao
        (decidePhase (obsPhase env ags) rng 0))
        (actPhase env (decidePhase (obsPhase env ags) rng 0)).2).getD i dfltQAgent = _
    unfold learnPhase
    rw [getD_zipWith_of_lt QAgent.avaliacaoEstadoAtual _ _ i
      (by rw [hlenm]; exact h) (by rw [hlenr]; exact h) dfltQAgent 0 dfltQAgent]
    unfold learnObsPhase
    rw [getD_map_of_lt _ _ i (by rw [hlenp]; exact h) ("", dfltQAgent) dfltQAgent]
    rw [fObs_atualizacao]
  refine ⟨hmain, ?_⟩
  intro hm s a hs ha
  rw [hmain]
  unfold QAgent.avaliacaoEstadoAtual
  simp only [QAgent.observacao] at hm hs ha ⊢
  rw [if_neg (by rw [hm]; simp)]
  simp only [hs, ha]

/-- Witness for C1: one concrete iteration with a single learning Q-agent
next to the resource. -/
theorem engine_fresh_observation_before_learning_witness :
    0 < ([cQL] : List QAgent).length ∧
    (engineStep cEnvA [cQL] cRngStream = .ok (engineRun cEnvA [cQL] cRngStream) ∧
     C1Prop cEnvA [cQL] cRngStream 0) :=
  ⟨by decide,
   engine_fresh_observation_before_learning cEnvA [cQL] cRngStream 0 (by decide)⟩

end Simulador
